import Mathlib

/-!
# Verification of the LeanIX snapshot/survey export client

Shallow embedding of `src/snapshot/snapshot.py` (class `LeanIX`): the
configuration handling in `__init__`, the authenticator `connect`, the HTTP
gateway `access_leanix_api`, the snapshot exporter `take_snapshot` and the
survey downloader `download_surveys`.

Network responses are supplied by an environment record (one response per
request the code can issue); exceptions are modelled with `Except`; the
side effects that matter to the specification (requests issued, files
written, console reports) are recorded in an event trace.
-/

set_option autoImplicit false
set_option maxRecDepth 4000

namespace LeanixClient

/-! ## Python value and dict model -/

/-- A Python runtime value, as far as the client needs them: `configparser`
option values are always `str` objects, while `True` is the singleton `bool`
object. -/
inductive PyVal
  | str (s : String)
  | bool (b : Bool)
deriving DecidableEq

/-- Python `x is True`: identity with the singleton `True` object.  A `str`
object is never identical to `True`, whatever its text. -/
def pyIsTrue : PyVal → Bool
  | PyVal.bool true => true
  | _ => false

/-- Python dict assignment `d[k] = v`: replaces the value at an existing key
in place, otherwise appends the new entry (insertion order preserved). -/
def dictSet (d : List (String × String)) (k v : String) : List (String × String) :=
  if d.any (fun p => p.1 = k) then d.map (fun p => if p.1 = k then (k, v) else p)
  else d ++ [(k, v)]

/-- Python `del d[k]`: removes the entry at key `k`. -/
def dictDel (d : List (String × String)) (k : String) : List (String × String) :=
  d.filter (fun p => ¬ p.1 = k)

/-- Python `d[k]` lookup, as an `Option`. -/
def dictGet (d : List (String × String)) (k : String) : Option String :=
  (d.find? (fun p => p.1 = k)).map (fun p => p.2)

/-! ## HTTP model -/

/-- A `requests` response: HTTP status code plus the already-decoded payload
the client reads from it (`.json()` projections or binary content). -/
structure HttpResponse (α : Type) where
  status_code : Nat
  body : α
deriving DecidableEq

/-- The Python exceptions the client can hit.  `HTTPError` corresponds to
`requests.exceptions.HTTPError` from `raise_for_status`; `AttributeErrorNone`
to calling `raise_for_status` on a `None` response; `IndexError` to
`data["data"][0]` on an empty list; `TypeErrorNone` to using a still-`None`
`workspace_id`/`header`; `ModelStuck` is an artefact of the loop-fuel
encoding, proved unreachable in `take_snapshot_never_modelStuck`. -/
inductive PyError
  | HTTPError (code : Nat)
  | AttributeErrorNone
  | IndexError
  | TypeErrorNone
  | ModelStuck
deriving DecidableEq

/-- Python `response.raise_for_status()` raises `HTTPError` exactly for status codes
in `[400, 600)` (client and server errors). -/
def raise_for_status {α : Type} (r : HttpResponse α) : Except PyError (HttpResponse α) :=
  if 400 ≤ r.status_code ∧ r.status_code < 600 then Except.error (PyError.HTTPError r.status_code)
  else Except.ok r

/-- The response makes `raise_for_status` raise. -/
def httpRaises {α : Type} (r : HttpResponse α) : Prop :=
  400 ≤ r.status_code ∧ r.status_code < 600

/-- The response passes `raise_for_status`. -/
def respOk {α : Type} (r : HttpResponse α) : Prop :=
  ¬ httpRaises r

instance {α : Type} (r : HttpResponse α) : Decidable (httpRaises r) := by
  unfold httpRaises; infer_instance

instance {α : Type} (r : HttpResponse α) : Decidable (respOk r) := by
  unfold respOk; infer_instance

/-! ## Configuration and client state (`LeanIX.__init__`) -/

/-- The `config.ini` contents read by `__init__` and the two workflows.
`configparser` hands every option back as a string. -/
structure Config where
  HOSTNAME : String
  APITOKEN : String
  HTTP_PROXY : String
  HTTPS_PROXY : String
  PROXY_REQUIRED : String
  WORKSPACEID : String
  EXPORT_FILENAME : String
  SURVEY_FILENAME : String
deriving DecidableEq

/-- The proxies dict `{'http': ..., 'https': ...}`. -/
structure Proxies where
  http : String
  https : String
deriving DecidableEq

/-- The mutable state of a `LeanIX` client instance.  `instanceUrl` is the
source's `self.instance` (`instance` is a Lean keyword). -/
structure LeanIX where
  config : Config
  instanceUrl : String
  base_path : String
  poll_url : String
  apitoken : String
  header : Option (List (String × String))
  timeout : Nat
  proxies : Option Proxies
deriving DecidableEq

/-- Embedding of `LeanIX.__init__`: reads the configuration and sets up the state.  The
source guards the proxies with `proxy_required is True`, where
`proxy_required` is the string `config['MANDATORY']['PROXY_REQUIRED']`. -/
def LeanIX.init (config : Config) : LeanIX :=
  { config := config
    instanceUrl := config.HOSTNAME
    base_path := "/services/pathfinder/v1"
    poll_url := "/services/poll/v2"
    apitoken := config.APITOKEN
    header := Option.none
    timeout := 7200
    proxies :=
      if pyIsTrue (PyVal.str config.PROXY_REQUIRED) then
        some { http := config.HTTP_PROXY, https := config.HTTPS_PROXY }
      else Option.none }

/-- Header dict produced by `connect`. -/
def bearerHdr (token : String) : List (String × String) :=
  [("Authorization", "Bearer " ++ token)]

/-- The state after a successful `connect` returning `token`. -/
def withBearer (self : LeanIX) (token : String) : LeanIX :=
  { self with header := some (bearerHdr token) }

/-- Embedding of `LeanIX.connect`: POSTs to the OAuth token endpoint and replaces
`self.header` with the fresh bearer-token header; a non-2xx response raises
and propagates.  `authResp.body` is the `access_token` field of the JSON. -/
def connect (authResp : HttpResponse String) (self : LeanIX) : Except PyError LeanIX :=
  match raise_for_status authResp with
  | Except.error e => Except.error e
  | Except.ok r => Except.ok (withBearer self r.body)

/-! ## HTTP gateway (`LeanIX.access_leanix_api`) -/

/-- The request actually handed to the `requests` library. -/
structure Request where
  url : String
  method : String
  headers : Option (List (String × String))
  proxies : Option Proxies
  params : List (String × String)
  payload : Option String
  stream : Bool
deriving DecidableEq

/-- The request `access_leanix_api` issues: the dispatcher only fires for
`GET`, `POST` and `PUT`; for any other method string `response` stays
`None` and no request is issued. -/
def issuedRequest (self : LeanIX) (url method : String) (payload : Option String)
    (params : List (String × String)) (stream : Bool) : Option Request :=
  if method = "GET" then
    some { url := url, method := "GET", headers := self.header, proxies := self.proxies,
           params := params, payload := payload, stream := stream }
  else if method = "POST" then
    some { url := url, method := "POST", headers := self.header, proxies := self.proxies,
           params := params, payload := payload, stream := stream }
  else if method = "PUT" then
    some { url := url, method := "PUT", headers := self.header, proxies := self.proxies,
           params := params, payload := payload, stream := stream }
  else Option.none

/-- Embedding of `LeanIX.access_leanix_api`: dispatches on the method, then calls
`response.raise_for_status()`.  When no request was issued the response is
still `None` and `None.raise_for_status()` fails with an `AttributeError`. -/
def access_leanix_api {α : Type} (self : LeanIX) (url method : String) (payload : Option String)
    (params : List (String × String)) (stream : Bool) (resp : HttpResponse α) :
    Except PyError (HttpResponse α) :=
  match issuedRequest self url method payload params stream with
  | some _ => raise_for_status resp
  | Option.none => Except.error PyError.AttributeErrorNone

/-! ## Snapshot exporter (`LeanIX.take_snapshot`) -/

/-- Payload of the job-status response
(`data.status`, `data.workspaceId`, `data.processed`, `data.total`). -/
structure JobStatus where
  status : String
  workspaceId : String
  processed : Nat
  total : Nat
deriving DecidableEq

/-- One entry of the export-listing response (`status`, `downloadKey`). -/
structure ExportRecord where
  status : String
  downloadKey : String
deriving DecidableEq

/-- Observable steps of the two workflows: requests issued, files written and
the console reports the specification talks about.  `pollEv n auth` records
the `Authorization` header value carried by the `n`-th status poll. -/
inductive Event
  | triggerEv
  | connectEv (n : Nat)
  | pollEv (n : Nat) (auth : Option String)
  | metadataLookup
  | downloadEv
  | fileWrite (filename : String)
  | printTimeout
  | printNotCompleted (status : String)
  | printSaved (filename : String)
  | printDownloadError
  | surveysListEv
  | runsEv (survey : String)
  | resultEv (survey run : String)
  | surveyWrite (filename : String)
  | printSurveyError
deriving DecidableEq

/-- Environment for one `take_snapshot` run: the responses the remote API
would give to each request, plus today's date (`get_today_date`).
`authResp n` answers the `n`-th in-loop re-authentication, `pollResp n` the
`n`-th status poll. -/
structure SnapshotEnv where
  authResp : Nat → HttpResponse String
  triggerResp : HttpResponse String
  pollResp : Nat → HttpResponse JobStatus
  exportsResp : HttpResponse (List ExportRecord)
  downloadResp : HttpResponse Unit
  today : String

/-- Python return values of `take_snapshot`: `False` from the failure
branches, `None` from the download branches. -/
inductive PyRet
  | retFalse
  | retNone
deriving DecidableEq

/-- Outcome of the poll loop: normal exit with the current state, an uncaught
exception, or fuel exhaustion (unreachable for the fuel `take_snapshot`
uses). -/
inductive LoopOut
  | out (self : LeanIX) (status workspace_id : Option String) (waiting_since : Nat)
  | exn (e : PyError)
  | stuck

/-- The poll loop of `take_snapshot`:
`while status != "DONE" and waiting_since < self.timeout`, each iteration
re-authenticating, polling the job status and advancing `waiting_since` by
the 5-second sleep interval.  `fuel` bounds the recursion; since each
iteration needs `waiting_since < self.timeout` and adds 5, `self.timeout`
iterations always suffice (`pollLoopF_no_stuck`). -/
def pollLoopF (env : SnapshotEnv) (status_check_url : String) :
    Nat → LeanIX → Option String → Option String → Nat → Nat → List Event × LoopOut
  | 0, self, status, workspace_id, waiting_since, _ =>
    if ¬ status = some "DONE" ∧ waiting_since < self.timeout then ([], LoopOut.stuck)
    else ([], LoopOut.out self status workspace_id waiting_since)
  | fuel1 + 1, self, status, workspace_id, waiting_since, n =>
    if ¬ status = some "DONE" ∧ waiting_since < self.timeout then
      match connect (env.authResp n) self with
      | Except.error e => ([Event.connectEv n], LoopOut.exn e)
      | Except.ok self1 =>
        let auth := self1.header.bind (fun h => dictGet h "Authorization")
        match access_leanix_api self1 status_check_url "GET" Option.none [] false
            (env.pollResp n) with
        | Except.error e => ([Event.connectEv n, Event.pollEv n auth], LoopOut.exn e)
        | Except.ok r =>
          let rest := pollLoopF env status_check_url fuel1 self1 (some r.body.status)
            (some r.body.workspaceId) (waiting_since + 5) (n + 1)
          (Event.connectEv n :: Event.pollEv n auth :: rest.1, rest.2)
    else ([], LoopOut.out self status workspace_id waiting_since)

/-- The JSON body the metadata lookup sends (`json.dumps({'exportType': 'SNAPSHOT'})`). -/
def exportTypeJson : String := "\x7b\"exportType\": \"SNAPSHOT\"\x7d"

/-- Query parameters of the metadata lookup. -/
def keyParams : List (String × String) :=
  [("exportType", "SNAPSHOT"), ("pageSize", "1"), ("sorting", "createdAt"),
   ("sortDirection", "DESC")]

/-- Everything `take_snapshot` does after the poll loop: the timeout check,
the metadata lookup, the `COMPLETED` check, and the guarded binary download
with the temporary `Accept` header.  The `try` block covers only the download
request, the conditional file write and the `Saved to file` report; its
`except` clause catches `HTTPError`, reports, and returns (skipping the
`del self.header["Accept"]` that follows the `try` statement). -/
def afterPoll (env : SnapshotEnv) (self : LeanIX) (workspace_id : Option String)
    (waiting_since : Nat) : List Event × Except PyError (PyRet × LeanIX) :=
  if self.timeout ≤ waiting_since then
    ([Event.printTimeout], Except.ok (PyRet.retFalse, self))
  else
    let request_key_url := self.instanceUrl ++ self.base_path ++ "/exports"
    match access_leanix_api self request_key_url "GET" (some exportTypeJson) keyParams false
        env.exportsResp with
    | Except.error e => ([Event.metadataLookup], Except.error e)
    | Except.ok r =>
      match r.body with
      | [] => ([Event.metadataLookup], Except.error PyError.IndexError)
      | record :: _ =>
        if ¬ record.status = "COMPLETED" then
          ([Event.metadataLookup, Event.printNotCompleted record.status],
           Except.ok (PyRet.retFalse, self))
        else
          match workspace_id, self.header with
          | Option.none, _ => ([Event.metadataLookup], Except.error PyError.TypeErrorNone)
          | some _, Option.none => ([Event.metadataLookup], Except.error PyError.TypeErrorNone)
          | some ws, some hdr =>
            let hdr1 := dictSet hdr "Accept" "application/octet-stream"
            let self1 := { self with header := some hdr1 }
            let download_url := self.instanceUrl ++ self.base_path ++ "/exports/downloads/" ++ ws
            match access_leanix_api self1 download_url "GET" Option.none
                [("key", record.downloadKey)] true env.downloadResp with
            | Except.error (PyError.HTTPError _) =>
              ([Event.metadataLookup, Event.downloadEv, Event.printDownloadError],
               Except.ok (PyRet.retNone, self1))
            | Except.error e =>
              ([Event.metadataLookup, Event.downloadEv], Except.error e)
            | Except.ok binary =>
              let filename := String.replace self.config.EXPORT_FILENAME "{cdate}" env.today
              let writes := if binary.status_code = 200 then [Event.fileWrite filename] else []
              (Event.metadataLookup :: Event.downloadEv :: writes ++ [Event.printSaved filename],
               Except.ok (PyRet.retNone, { self1 with header := some (dictDel hdr1 "Accept") }))

/-- Embedding of `LeanIX.take_snapshot`: triggers the export, runs the poll loop, then the
post-loop phase.  Returns the event trace together with the Python outcome:
`Except.error` is an uncaught exception propagating to the caller. -/
def take_snapshot (env : SnapshotEnv) (self : LeanIX) :
    List Event × Except PyError (PyRet × LeanIX) :=
  let trigger_export_url := self.instanceUrl ++ self.base_path ++ "/exports/fullExport"
  match access_leanix_api self trigger_export_url "POST" Option.none
      [("exportType", "SNAPSHOT")] false env.triggerResp with
  | Except.error e => ([Event.triggerEv], Except.error e)
  | Except.ok trig =>
    let status_check_url := self.instanceUrl ++ self.base_path ++ "/jobs/" ++ trig.body ++ "/status"
    let L := pollLoopF env status_check_url self.timeout self Option.none Option.none 0 0
    match L.2 with
    | LoopOut.stuck => (Event.triggerEv :: L.1, Except.error PyError.ModelStuck)
    | LoopOut.exn e => (Event.triggerEv :: L.1, Except.error e)
    | LoopOut.out self1 _ workspace_id waiting_since =>
      let A := afterPoll env self1 workspace_id waiting_since
      (Event.triggerEv :: (L.1 ++ A.1), A.2)

/-- Event trace of a `take_snapshot` run. -/
def tsEvents (env : SnapshotEnv) (self : LeanIX) : List Event :=
  (take_snapshot env self).1

/-- Python return value of a `take_snapshot` run (uncaught exceptions as
`Except.error`). -/
def tsResult (env : SnapshotEnv) (self : LeanIX) : Except PyError PyRet :=
  (take_snapshot env self).2.map Prod.fst

/-- Final client state of a `take_snapshot` run that returned normally. -/
def tsState (env : SnapshotEnv) (self : LeanIX) : Except PyError LeanIX :=
  (take_snapshot env self).2.map Prod.snd

/-! ## Survey downloader (`LeanIX.download_surveys`) -/

/-- Environment for one `download_surveys` run: the survey-id listing, the
run-id listing per survey id and the result payload per run id. -/
structure SurveyEnv where
  pollsResp : HttpResponse (List String)
  runsResp : String → HttpResponse (List String)
  resultResp : String → HttpResponse (List Nat)

/-- The filename for one survey run's result spreadsheet. -/
def surveyFilename (self : LeanIX) (today survey run : String) : String :=
  String.replace (String.replace (String.replace self.config.SURVEY_FILENAME
    "{cdate}" today) "{id}" survey) "{run}" run

/-- Inner loop of `download_surveys`: downloads every run result of one
survey and writes it to its file. -/
def runsLoop (env : SurveyEnv) (self : LeanIX) (params : List (String × String))
    (today survey : String) : List String → List Event × Except PyError Unit
  | [] => ([], Except.ok ())
  | run :: rest =>
    let result_url := self.instanceUrl ++ self.poll_url ++ "/pollRuns/" ++ run ++
      "/poll_results.xlsx"
    match access_leanix_api self result_url "GET" Option.none params false
        (env.resultResp run) with
    | Except.error e => ([Event.resultEv survey run], Except.error e)
    | Except.ok _ =>
      let rest1 := runsLoop env self params today survey rest
      (Event.resultEv survey run :: Event.surveyWrite (surveyFilename self today survey run)
        :: rest1.1, rest1.2)

/-- Outer loop of `download_surveys`: lists the runs of each survey, then
downloads their results. -/
def surveysLoop (env : SurveyEnv) (self : LeanIX) (params : List (String × String))
    (today : String) : List String → List Event × Except PyError Unit
  | [] => ([], Except.ok ())
  | survey :: rest =>
    let run_url := self.instanceUrl ++ self.poll_url ++ "/polls/" ++ survey ++ "/pollRuns"
    match access_leanix_api self run_url "GET" Option.none params false (env.runsResp survey) with
    | Except.error e => ([Event.runsEv survey], Except.error e)
    | Except.ok r =>
      let inner := runsLoop env self params today survey r.body
      match inner.2 with
      | Except.error e => (Event.runsEv survey :: inner.1, Except.error e)
      | Except.ok _ =>
        let rest1 := surveysLoop env self params today rest
        (Event.runsEv survey :: (inner.1 ++ rest1.1), rest1.2)

/-- Embedding of `LeanIX.download_surveys`: the whole enumeration and download sits inside
one `try` whose `except requests.exceptions.HTTPError` clause reports and
returns; other exceptions would propagate. -/
def download_surveys (env : SurveyEnv) (self : LeanIX) (today : String) :
    List Event × Except PyError Unit :=
  let request_url := self.instanceUrl ++ self.poll_url ++ "/polls"
  let params := [("workspaceId", self.config.WORKSPACEID)]
  match access_leanix_api self request_url "GET" Option.none params false env.pollsResp with
  | Except.error (PyError.HTTPError _) =>
    ([Event.surveysListEv, Event.printSurveyError], Except.ok ())
  | Except.error e => ([Event.surveysListEv], Except.error e)
  | Except.ok r =>
    let body := surveysLoop env self params today r.body
    match body.2 with
    | Except.error (PyError.HTTPError _) =>
      (Event.surveysListEv :: (body.1 ++ [Event.printSurveyError]), Except.ok ())
    | Except.error e => (Event.surveysListEv :: body.1, Except.error e)
    | Except.ok _ => (Event.surveysListEv :: body.1, Except.ok ())

/-! ## Expected trace shapes -/

/-- Trace of `d` successful poll-loop iterations starting at index `n`:
each iteration re-authenticates and then polls with the fresh token. -/
def loopTrace (env : SnapshotEnv) : Nat → Nat → List Event
  | _, 0 => []
  | n, d + 1 =>
    Event.connectEv n :: Event.pollEv n (some ("Bearer " ++ (env.authResp n).body)) ::
      loopTrace env (n + 1) d

/-- Every status poll is immediately preceded by the re-authentication of the
same iteration and carries the bearer token that re-authentication returned. -/
def PollAuthed (env : SnapshotEnv) (tr : List Event) : Prop :=
  ∀ i n a, tr.get? i = some (Event.pollEv n a) →
    a = some ("Bearer " ++ (env.authResp n).body) ∧ 0 < i ∧
    tr.get? (i - 1) = some (Event.connectEv n)

/-- Trace of a fully successful pass over one survey's runs. -/
def goodRunsTrace (self : LeanIX) (today survey : String) : List String → List Event
  | [] => []
  | run :: rest =>
    Event.resultEv survey run :: Event.surveyWrite (surveyFilename self today survey run) ::
      goodRunsTrace self today survey rest

/-- Trace of a fully successful pass over a list of surveys. -/
def goodTrace (env : SurveyEnv) (self : LeanIX) (today : String) : List String → List Event
  | [] => []
  | survey :: rest =>
    Event.runsEv survey ::
      (goodRunsTrace self today survey (env.runsResp survey).body ++
        goodTrace env self today rest)

/-- Every survey in the list can be processed without an HTTP error. -/
def goodSurveys (env : SurveyEnv) (l : List String) : Prop :=
  ∀ s ∈ l, respOk (env.runsResp s) ∧ ∀ r ∈ (env.runsResp s).body, respOk (env.resultResp r)

/-! ## Concrete inputs used by witnesses and counterexamples -/

/-- A configuration with the proxy flag off. -/
def cfg0 : Config :=
  { HOSTNAME := "https://acme.leanix.net", APITOKEN := "tk", HTTP_PROXY := "http://proxy:3128",
    HTTPS_PROXY := "https://proxy:3128", PROXY_REQUIRED := "False", WORKSPACEID := "w1",
    EXPORT_FILENAME := "export_{cdate}.xlsx",
    SURVEY_FILENAME := "survey_{id}_{run}_{cdate}.xlsx" }

/-- A configuration whose proxy-required flag is set (what `config.ini` holds
is the string `"True"`). -/
def cfgProxyTrue : Config :=
  { cfg0 with PROXY_REQUIRED := "True" }

/-- Client state as built by `__init__` from `cfg0`. -/
def lx0 : LeanIX := LeanIX.init cfg0

/-- A successful job-status response with the given status text. -/
def jobOk (s : String) : HttpResponse JobStatus :=
  { status_code := 200, body := { status := s, workspaceId := "ws1", processed := 1, total := 1 } }

/-- Fully successful snapshot environment: the job is `DONE` at the first
poll, the export record is `COMPLETED`, the download returns 200. -/
def envOK : SnapshotEnv :=
  { authResp := fun _ => { status_code := 200, body := "tok" }
    triggerResp := { status_code := 200, body := "job1" }
    pollResp := fun _ => jobOk "DONE"
    exportsResp :=
      { status_code := 200, body := [{ status := "COMPLETED", downloadKey := "key1" }] }
    downloadResp := { status_code := 200, body := () }
    today := "2024-03-05" }

/-- Like `envOK` but the binary download fails with HTTP 500. -/
def envDl500 : SnapshotEnv :=
  { envOK with downloadResp := { status_code := 500, body := () } }

/-- Like `envOK` but the binary download answers 204 No Content. -/
def envDl204 : SnapshotEnv :=
  { envOK with downloadResp := { status_code := 204, body := () } }

/-- Like `envOK` but the export trigger fails with HTTP 500. -/
def envTrig500 : SnapshotEnv :=
  { envOK with triggerResp := { status_code := 500, body := "" } }

/-- Like `envOK` but the export record is not completed. -/
def envNC : SnapshotEnv :=
  { envOK with exportsResp :=
      { status_code := 200, body := [{ status := "IN_PROGRESS", downloadKey := "key1" }] } }

/-- Like `envOK` but the job only reports `DONE` at the 1440th poll (index
1439), when `waiting_since` is 7195 — still strictly below the timeout. -/
def envC2 : SnapshotEnv :=
  { envOK with pollResp := fun k => jobOk (if k < 1439 then "IN_PROGRESS" else "DONE") }

/-- Like `envOK` but the job never reports `DONE`. -/
def envNeverDone : SnapshotEnv :=
  { envOK with pollResp := fun _ => jobOk "IN_PROGRESS" }

/-- The client state after `take_snapshot envDl500 lx0`: the download error
was caught, but the temporary `Accept` header entry is still present. -/
def lxAcceptStuck : LeanIX :=
  { lx0 with header := some [("Authorization", "Bearer tok"),
                             ("Accept", "application/octet-stream")] }

/-- Survey environment: three surveys; the run listing of `"s2"` fails with
HTTP 500 while everything about `"s1"` and `"s3"` would succeed. -/
def envSurvey : SurveyEnv :=
  { pollsResp := { status_code := 200, body := ["s1", "s2", "s3"] }
    runsResp := fun s =>
      if s = "s2" then { status_code := 500, body := [] }
      else { status_code := 200, body := ["r" ++ s] }
    resultResp := fun _ => { status_code := 200, body := [80, 75] } }

/-- A throwaway successful response used to instantiate gateway claims. -/
def respU : HttpResponse Unit := { status_code := 200, body := () }

/-! ## Gateway and dict lemmas -/

theorem raise_for_status_ok {α : Type} {r : HttpResponse α} (h : respOk r) :
    raise_for_status r = Except.ok r := by
  unfold raise_for_status
  exact if_neg h

theorem raise_for_status_err {α : Type} {r : HttpResponse α} (h : httpRaises r) :
    raise_for_status r = Except.error (PyError.HTTPError r.status_code) := by
  unfold raise_for_status
  exact if_pos h

theorem access_GET_ok {α : Type} (self : LeanIX) (url : String) (payload : Option String)
    (params : List (String × String)) (stream : Bool) {r : HttpResponse α} (h : respOk r) :
    access_leanix_api self url "GET" payload params stream r = Except.ok r := by
  simp [access_leanix_api, issuedRequest, raise_for_status_ok h]

theorem access_GET_err {α : Type} (self : LeanIX) (url : String) (payload : Option String)
    (params : List (String × String)) (stream : Bool) {r : HttpResponse α} (h : httpRaises r) :
    access_leanix_api self url "GET" payload params stream r
      = Except.error (PyError.HTTPError r.status_code) := by
  simp [access_leanix_api, issuedRequest, raise_for_status_err h]

theorem access_POST_ok {α : Type} (self : LeanIX) (url : String) (payload : Option String)
    (params : List (String × String)) (stream : Bool) {r : HttpResponse α} (h : respOk r) :
    access_leanix_api self url "POST" payload params stream r = Except.ok r := by
  simp [access_leanix_api, issuedRequest, raise_for_status_ok h]

theorem access_POST_err {α : Type} (self : LeanIX) (url : String) (payload : Option String)
    (params : List (String × String)) (stream : Bool) {r : HttpResponse α} (h : httpRaises r) :
    access_leanix_api self url "POST" payload params stream r
      = Except.error (PyError.HTTPError r.status_code) := by
  simp [access_leanix_api, issuedRequest, raise_for_status_err h]

/-- The gateway's `GET` path can only fail with an `HTTPError`. -/
theorem access_GET_error_http {α : Type} {self : LeanIX} {url : String} {payload : Option String}
    {params : List (String × String)} {stream : Bool} {r : HttpResponse α} {e : PyError}
    (h : access_leanix_api self url "GET" payload params stream r = Except.error e) :
    e = PyError.HTTPError r.status_code ∧ httpRaises r := by
  by_cases hr : httpRaises r
  · rw [access_GET_err self url payload params stream hr] at h
    exact ⟨(Except.error.inj h).symm, hr⟩
  · rw [access_GET_ok self url payload params stream hr] at h
    exact absurd h (by simp)

theorem connect_ok {a : HttpResponse String} (self : LeanIX) (h : respOk a) :
    connect a self = Except.ok (withBearer self a.body) := by
  simp [connect, raise_for_status_ok h]

theorem connect_err {a : HttpResponse String} (self : LeanIX) (h : httpRaises a) :
    connect a self = Except.error (PyError.HTTPError a.status_code) := by
  simp [connect, raise_for_status_err h]

theorem dictGet_bearer_auth (t : String) :
    dictGet (bearerHdr t) "Authorization" = some ("Bearer " ++ t) := by
  simp [dictGet, bearerHdr, List.find?]

theorem dictSet_bearer_accept (t v : String) :
    dictSet (bearerHdr t) "Accept" v = bearerHdr t ++ [("Accept", v)] := by
  simp [dictSet, bearerHdr]

theorem dictDel_bearer_accept (t v : String) :
    dictDel (bearerHdr t ++ [("Accept", v)]) "Accept" = bearerHdr t := by
  simp [dictDel, bearerHdr]

theorem dictGet_bearer_accept_set (t v : String) :
    dictGet (dictSet (bearerHdr t) "Accept" v) "Accept" = some v := by
  simp [dictSet_bearer_accept, dictGet, bearerHdr, List.find?]

theorem dictGet_bearer_accept_set_ne (t v k : String) (h : ¬ k = "Accept") :
    dictGet (dictSet (bearerHdr t) "Accept" v) k = dictGet (bearerHdr t) k := by
  rw [dictSet_bearer_accept]
  by_cases hk : k = "Authorization"
  · subst hk
    simp [dictGet, bearerHdr, List.find?]
  · have h1 : ¬ (("Authorization" : String) = k) := fun hc => hk hc.symm
    have h2 : ¬ (("Accept" : String) = k) := fun hc => h hc.symm
    simp [dictGet, bearerHdr, List.find?, h1, h2]

theorem connect_ok_inv {a : HttpResponse String} {self self1 : LeanIX}
    (h : connect a self = Except.ok self1) : self1 = withBearer self a.body ∧ respOk a := by
  by_cases hr : httpRaises a
  · rw [connect_err self hr] at h
    exact absurd h (by simp)
  · rw [connect_ok self hr] at h
    exact ⟨(Except.ok.inj h).symm, hr⟩

/-! ## Poll-loop lemmas -/

/-- Loop exit: the condition `status != "DONE" and waiting_since < timeout`
fails, so the loop returns the current state. -/
theorem pollLoopF_exit (env : SnapshotEnv) (url : String) (fuel : Nat) (self : LeanIX)
    (st ws : Option String) (w n : Nat) (h : ¬ (¬ st = some "DONE" ∧ w < self.timeout)) :
    pollLoopF env url fuel self st ws w n = ([], LoopOut.out self st ws w) := by
  cases fuel with
  | zero => rw [pollLoopF]; exact if_neg h
  | succ fuel1 => rw [pollLoopF]; exact if_neg h

/-- One successful loop iteration: re-authenticate, poll, recurse with the
polled status and workspace id and `waiting_since + 5`. -/
theorem pollLoopF_succ_ok (env : SnapshotEnv) (url : String) (fuel1 : Nat) (self : LeanIX)
    (st ws : Option String) (w n : Nat) (hst : ¬ st = some "DONE") (hw : w < self.timeout)
    (hauth : respOk (env.authResp n)) (hpoll : respOk (env.pollResp n)) :
    pollLoopF env url (fuel1 + 1) self st ws w n =
      (Event.connectEv n :: Event.pollEv n (some ("Bearer " ++ (env.authResp n).body)) ::
        (pollLoopF env url fuel1 (withBearer self (env.authResp n).body)
          (some (env.pollResp n).body.status) (some (env.pollResp n).body.workspaceId)
          (w + 5) (n + 1)).1,
       (pollLoopF env url fuel1 (withBearer self (env.authResp n).body)
          (some (env.pollResp n).body.status) (some (env.pollResp n).body.workspaceId)
          (w + 5) (n + 1)).2) := by
  rw [pollLoopF]
  rw [if_pos ⟨hst, hw⟩]
  rw [connect_ok self hauth]
  simp only [access_GET_ok _ _ _ _ _ hpoll, withBearer, Option.bind, dictGet_bearer_auth]

/-- A failing re-authentication propagates out of the loop. -/
theorem pollLoopF_succ_connectErr (env : SnapshotEnv) (url : String) (fuel1 : Nat)
    (self : LeanIX) (st ws : Option String) (w n : Nat) (hst : ¬ st = some "DONE")
    (hw : w < self.timeout) (hauth : httpRaises (env.authResp n)) :
    pollLoopF env url (fuel1 + 1) self st ws w n =
      ([Event.connectEv n], LoopOut.exn (PyError.HTTPError (env.authResp n).status_code)) := by
  rw [pollLoopF]
  rw [if_pos ⟨hst, hw⟩]
  rw [connect_err self hauth]

/-- A failing status poll propagates out of the loop (after the poll request
was issued with the freshly obtained token). -/
theorem pollLoopF_succ_pollErr (env : SnapshotEnv) (url : String) (fuel1 : Nat)
    (self : LeanIX) (st ws : Option String) (w n : Nat) (hst : ¬ st = some "DONE")
    (hw : w < self.timeout) (hauth : respOk (env.authResp n))
    (hpoll : httpRaises (env.pollResp n)) :
    pollLoopF env url (fuel1 + 1) self st ws w n =
      ([Event.connectEv n, Event.pollEv n (some ("Bearer " ++ (env.authResp n).body))],
       LoopOut.exn (PyError.HTTPError (env.pollResp n).status_code)) := by
  rw [pollLoopF]
  rw [if_pos ⟨hst, hw⟩]
  rw [connect_ok self hauth]
  simp only [access_GET_err _ _ _ _ _ hpoll, withBearer, Option.bind, dictGet_bearer_auth]


/-- With fuel at least `timeout - waiting_since` fifths, the loop never runs
out of fuel; in particular `self.timeout` units of fuel always suffice. -/
theorem pollLoopF_no_stuck (env : SnapshotEnv) (url : String) :
    ∀ (fuel : Nat) (self : LeanIX) (st ws : Option String) (w n : Nat),
      self.timeout ≤ w + 5 * fuel →
      ¬ (pollLoopF env url fuel self st ws w n).2 = LoopOut.stuck := by
  intro fuel
  induction fuel with
  | zero =>
    intro self st ws w n hle
    by_cases hc : ¬ st = some "DONE" ∧ w < self.timeout
    · exact absurd hc.2 (by omega)
    · rw [pollLoopF_exit env url 0 self st ws w n hc]
      simp
  | succ fuel1 ih =>
    intro self st ws w n hle
    by_cases hc : ¬ st = some "DONE" ∧ w < self.timeout
    · by_cases hauth : respOk (env.authResp n)
      · by_cases hpoll : respOk (env.pollResp n)
        · rw [pollLoopF_succ_ok env url fuel1 self st ws w n hc.1 hc.2 hauth hpoll]
          exact ih (withBearer self (env.authResp n).body) (some (env.pollResp n).body.status)
            (some (env.pollResp n).body.workspaceId) (w + 5) (n + 1) (by simp [withBearer]; omega)
        · rw [pollLoopF_succ_pollErr env url fuel1 self st ws w n hc.1 hc.2 hauth
            (not_not.mp hpoll)]
          simp
      · rw [pollLoopF_succ_connectErr env url fuel1 self st ws w n hc.1 hc.2 (not_not.mp hauth)]
        simp
    · rw [pollLoopF_exit env url (fuel1 + 1) self st ws w n hc]
      simp

/-- The loop trace only ever contains re-authentication and poll events. -/
theorem pollLoopF_events (env : SnapshotEnv) (url : String) :
    ∀ (fuel : Nat) (self : LeanIX) (st ws : Option String) (w n : Nat) (e : Event),
      e ∈ (pollLoopF env url fuel self st ws w n).1 →
      (∃ m, e = Event.connectEv m) ∨ (∃ m a, e = Event.pollEv m a) := by
  intro fuel
  induction fuel with
  | zero =>
    intro self st ws w n e he
    by_cases hc : ¬ st = some "DONE" ∧ w < self.timeout
    · rw [pollLoopF] at he
      rw [if_pos hc] at he
      simp at he
    · rw [pollLoopF_exit env url 0 self st ws w n hc] at he
      simp at he
  | succ fuel1 ih =>
    intro self st ws w n e he
    by_cases hc : ¬ st = some "DONE" ∧ w < self.timeout
    · by_cases hauth : respOk (env.authResp n)
      · by_cases hpoll : respOk (env.pollResp n)
        · rw [pollLoopF_succ_ok env url fuel1 self st ws w n hc.1 hc.2 hauth hpoll] at he
          simp only [List.mem_cons] at he
          rcases he with rfl | rfl | he
          · exact Or.inl ⟨n, rfl⟩
          · exact Or.inr ⟨n, _, rfl⟩
          · exact ih _ _ _ _ _ e he
        · rw [pollLoopF_succ_pollErr env url fuel1 self st ws w n hc.1 hc.2 hauth
            (not_not.mp hpoll)] at he
          simp only [List.mem_cons, List.mem_singleton] at he
          rcases he with rfl | rfl | he
          · exact Or.inl ⟨n, rfl⟩
          · exact Or.inr ⟨n, _, rfl⟩
          · simp at he
      · rw [pollLoopF_succ_connectErr env url fuel1 self st ws w n hc.1 hc.2
          (not_not.mp hauth)] at he
        simp only [List.mem_singleton] at he
        exact Or.inl ⟨n, he⟩
    · rw [pollLoopF_exit env url (fuel1 + 1) self st ws w n hc] at he
      simp at he

/-- Successful loop run observing the first `"DONE"` at relative index `d`:
the loop performs exactly `d + 1` iterations and exits with the state of the
last connect, the polled `"DONE"` status and workspace id, and
`waiting_since` advanced by `5 * (d + 1)`. -/
theorem pollLoopF_done (env : SnapshotEnv) (url : String)
    (hauth : ∀ k, respOk (env.authResp k)) (hpoll : ∀ k, respOk (env.pollResp k)) :
    ∀ (d fuel : Nat) (self : LeanIX) (st ws : Option String) (w n : Nat),
      (∀ j, j < d → ¬ (env.pollResp (n + j)).body.status = "DONE") →
      (env.pollResp (n + d)).body.status = "DONE" →
      ¬ st = some "DONE" → w + 5 * d < self.timeout → d < fuel →
      pollLoopF env url fuel self st ws w n =
        (loopTrace env n (d + 1),
         LoopOut.out (withBearer self (env.authResp (n + d)).body)
           (some (env.pollResp (n + d)).body.status)
           (some (env.pollResp (n + d)).body.workspaceId) (w + 5 * (d + 1))) := by
  intro d
  induction d with
  | zero =>
    intro fuel self st ws w n _ hd hst hw hfuel
    obtain ⟨fuel1, rfl⟩ : ∃ f, fuel = f + 1 := ⟨fuel - 1, by omega⟩
    rw [pollLoopF_succ_ok env url fuel1 self st ws w n hst (by omega) (hauth n) (hpoll n)]
    rw [pollLoopF_exit env url fuel1 _ _ _ (w + 5) (n + 1)
      (by simp only [Nat.add_zero] at hd; simp [hd])]
    simp only [Nat.add_zero, loopTrace]
  | succ d1 ih =>
    intro fuel self st ws w n hne hd hst hw hfuel
    obtain ⟨fuel1, rfl⟩ : ∃ f, fuel = f + 1 := ⟨fuel - 1, by omega⟩
    rw [pollLoopF_succ_ok env url fuel1 self st ws w n hst (by omega) (hauth n) (hpoll n)]
    have hne1 : ∀ j, j < d1 → ¬ (env.pollResp (n + 1 + j)).body.status = "DONE" := by
      intro j hj
      have := hne (j + 1) (by omega)
      simpa [Nat.add_assoc, Nat.add_comm 1 j] using this
    have hd1 : (env.pollResp (n + 1 + d1)).body.status = "DONE" := by
      have : n + 1 + d1 = n + (d1 + 1) := by omega
      rw [this]
      exact hd
    have hst1 : ¬ (some (env.pollResp n).body.status : Option String) = some "DONE" := by
      have := hne 0 (by omega)
      simp only [Nat.add_zero] at this
      simp [this]
    rw [ih fuel1 (withBearer self (env.authResp n).body)
      (some (env.pollResp n).body.status) (some (env.pollResp n).body.workspaceId)
      (w + 5) (n + 1) hne1 hd1 hst1 (by simp [withBearer]; omega) (by omega)]
    have harr : n + 1 + d1 = n + (d1 + 1) := by omega
    have harw : w + 5 + 5 * (d1 + 1) = w + 5 * (d1 + 1 + 1) := by omega
    rw [harr, harw]
    simp [loopTrace, withBearer]

/-- If the polls stay below `"DONE"` for `d` iterations and the `d`-th poll
response is an HTTP error, the loop ends in that uncaught exception. -/
theorem pollLoopF_pollError (env : SnapshotEnv) (url : String)
    (hauth : ∀ k, respOk (env.authResp k)) :
    ∀ (d fuel : Nat) (self : LeanIX) (st ws : Option String) (w n : Nat),
      (∀ j, j < d → respOk (env.pollResp (n + j)) ∧
        ¬ (env.pollResp (n + j)).body.status = "DONE") →
      httpRaises (env.pollResp (n + d)) →
      ¬ st = some "DONE" → w + 5 * d < self.timeout → d < fuel →
      (pollLoopF env url fuel self st ws w n).2 =
        LoopOut.exn (PyError.HTTPError (env.pollResp (n + d)).status_code) := by
  intro d
  induction d with
  | zero =>
    intro fuel self st ws w n _ hd hst hw hfuel
    obtain ⟨fuel1, rfl⟩ : ∃ f, fuel = f + 1 := ⟨fuel - 1, by omega⟩
    simp only [Nat.add_zero] at hd
    rw [pollLoopF_succ_pollErr env url fuel1 self st ws w n hst (by omega) (hauth n) hd]
    simp
  | succ d1 ih =>
    intro fuel self st ws w n hpre hd hst hw hfuel
    obtain ⟨fuel1, rfl⟩ : ∃ f, fuel = f + 1 := ⟨fuel - 1, by omega⟩
    have h0 := hpre 0 (by omega)
    simp only [Nat.add_zero] at h0
    rw [pollLoopF_succ_ok env url fuel1 self st ws w n hst (by omega) (hauth n) h0.1]
    have hpre1 : ∀ j, j < d1 → respOk (env.pollResp (n + 1 + j)) ∧
        ¬ (env.pollResp (n + 1 + j)).body.status = "DONE" := by
      intro j hj
      have := hpre (j + 1) (by omega)
      simpa [Nat.add_assoc, Nat.add_comm 1 j] using this
    have hd1 : httpRaises (env.pollResp (n + 1 + d1)) := by
      have harr : n + 1 + d1 = n + (d1 + 1) := by omega
      rw [harr]
      exact hd
    have harr : n + 1 + d1 = n + (d1 + 1) := by omega
    rw [← harr]
    exact ih fuel1 (withBearer self (env.authResp n).body)
      (some (env.pollResp n).body.status) (some (env.pollResp n).body.workspaceId)
      (w + 5) (n + 1) hpre1 hd1 (by simp [h0.2]) (by simp [withBearer]; omega) (by omega)

/-- If no poll ever reports `"DONE"`, the loop exits normally with
`waiting_since` at or above the timeout (given enough fuel). -/
theorem pollLoopF_timeout (env : SnapshotEnv) (url : String)
    (hauth : ∀ k, respOk (env.authResp k)) (hpoll : ∀ k, respOk (env.pollResp k))
    (hnever : ∀ k, ¬ (env.pollResp k).body.status = "DONE") :
    ∀ (fuel : Nat) (self : LeanIX) (st ws : Option String) (w n : Nat),
      ¬ st = some "DONE" → self.timeout ≤ w + 5 * fuel →
      ∃ s1 st1 ws1 w1, (pollLoopF env url fuel self st ws w n).2 =
        LoopOut.out s1 st1 ws1 w1 ∧ self.timeout ≤ w1 ∧ s1.timeout = self.timeout := by
  intro fuel
  induction fuel with
  | zero =>
    intro self st ws w n hst hle
    by_cases hc : ¬ st = some "DONE" ∧ w < self.timeout
    · exact absurd hc.2 (by omega)
    · rw [pollLoopF_exit env url 0 self st ws w n hc]
      exact ⟨self, st, ws, w, rfl, by omega, rfl⟩
  | succ fuel1 ih =>
    intro self st ws w n hst hle
    by_cases hc : ¬ st = some "DONE" ∧ w < self.timeout
    · rw [pollLoopF_succ_ok env url fuel1 self st ws w n hc.1 hc.2 (hauth n) (hpoll n)]
      have := ih (withBearer self (env.authResp n).body) (some (env.pollResp n).body.status)
        (some (env.pollResp n).body.workspaceId) (w + 5) (n + 1)
        (by simp [hnever n]) (by simp [withBearer]; omega)
      obtain ⟨s1, st1, ws1, w1, heq, hw1, hti⟩ := this
      exact ⟨s1, st1, ws1, w1, heq, by simpa [withBearer] using hw1,
        by simpa [withBearer] using hti⟩
    · rw [pollLoopF_exit env url (fuel1 + 1) self st ws w n hc]
      refine ⟨self, st, ws, w, rfl, ?_, rfl⟩
      rcases not_and_or.mp hc with h1 | h2
      · exact absurd hst h1
      · omega

/-- Events of a pure loop trace. -/
theorem loopTrace_events (env : SnapshotEnv) :
    ∀ (d n : Nat) (e : Event), e ∈ loopTrace env n d →
      (∃ m, e = Event.connectEv m) ∨ (∃ m a, e = Event.pollEv m a) := by
  intro d
  induction d with
  | zero => intro n e he; simp [loopTrace] at he
  | succ d1 ih =>
    intro n e he
    simp only [loopTrace, List.mem_cons] at he
    rcases he with rfl | rfl | he
    · exact Or.inl ⟨n, rfl⟩
    · exact Or.inr ⟨n, _, rfl⟩
    · exact ih (n + 1) e he

/-- Each of the `d` iterations of a successful loop trace contains its poll
event, carrying the token of its own re-authentication. -/
theorem pollEv_mem_loopTrace (env : SnapshotEnv) :
    ∀ (d n j : Nat), j < d →
      Event.pollEv (n + j) (some ("Bearer " ++ (env.authResp (n + j)).body)) ∈
        loopTrace env n d := by
  intro d
  induction d with
  | zero => intro n j hj; omega
  | succ d1 ih =>
    intro n j hj
    cases j with
    | zero => simp [loopTrace]
    | succ j1 =>
      have := ih (n + 1) j1 (by omega)
      have harr : n + 1 + j1 = n + (j1 + 1) := by omega
      rw [harr] at this
      simp [loopTrace, this]


/-! ## After-loop lemmas -/

/-- Timeout branch: `waiting_since >= self.timeout` reports and returns
`False` without touching the metadata or download endpoints. -/
theorem afterPoll_timeout (env : SnapshotEnv) (self : LeanIX) (ws : Option String) (w : Nat)
    (h : self.timeout ≤ w) :
    afterPoll env self ws w = ([Event.printTimeout], Except.ok (PyRet.retFalse, self)) := by
  simp only [afterPoll]
  rw [if_pos h]

/-- The post-loop phase never issues a status poll. -/
theorem afterPoll_no_pollEv (env : SnapshotEnv) (self : LeanIX) (ws : Option String) (w : Nat)
    (m : Nat) (a : Option String) : Event.pollEv m a ∉ (afterPoll env self ws w).1 := by
  simp only [afterPoll]
  repeat' split
  all_goals simp

/-- Off the timeout branch, the post-loop phase performs the metadata lookup
exactly once and never reports a timeout. -/
theorem afterPoll_meta_once (env : SnapshotEnv) (self : LeanIX) (ws : Option String) (w : Nat)
    (h : ¬ self.timeout ≤ w) :
    ((afterPoll env self ws w).1.count Event.metadataLookup = 1) ∧
    Event.printTimeout ∉ (afterPoll env self ws w).1 := by
  simp only [afterPoll]
  rw [if_neg h]
  repeat' split
  all_goals simp [List.count_cons, List.count_append]

/-- A failing metadata lookup propagates uncaught. -/
theorem afterPoll_metaErr (env : SnapshotEnv) (self : LeanIX) (ws : Option String) (w : Nat)
    (hw : ¬ self.timeout ≤ w) (hm : httpRaises env.exportsResp) :
    afterPoll env self ws w =
      ([Event.metadataLookup],
       Except.error (PyError.HTTPError env.exportsResp.status_code)) := by
  simp only [afterPoll]
  rw [if_neg hw, access_GET_err _ _ _ _ _ hm]

/-- A non-`COMPLETED` export record reports and returns `False` before any
download request. -/
theorem afterPoll_notCompleted (env : SnapshotEnv) (self : LeanIX) (ws : Option String)
    (w : Nat) (record : ExportRecord) (rest : List ExportRecord)
    (hw : ¬ self.timeout ≤ w) (hm : respOk env.exportsResp)
    (hb : env.exportsResp.body = record :: rest) (hs : ¬ record.status = "COMPLETED") :
    afterPoll env self ws w =
      ([Event.metadataLookup, Event.printNotCompleted record.status],
       Except.ok (PyRet.retFalse, self)) := by
  simp only [afterPoll]
  rw [if_neg hw]
  simp only [access_GET_ok _ _ _ _ _ hm, hb]
  rw [if_pos hs]

/-- Completed record, download response an HTTP error: the error is caught,
reported, and the method returns `None` with the `Accept` entry still in the
header (the `del` after the `try` block is skipped by the `return`). -/
theorem afterPoll_completed_dlErr (env : SnapshotEnv) (self : LeanIX) (wsid : String)
    (w : Nat) (hdr : List (String × String)) (record : ExportRecord)
    (rest : List ExportRecord) (hw : ¬ self.timeout ≤ w) (hm : respOk env.exportsResp)
    (hb : env.exportsResp.body = record :: rest) (hs : record.status = "COMPLETED")
    (hh : self.header = some hdr) (hd : httpRaises env.downloadResp) :
    afterPoll env self (some wsid) w =
      ([Event.metadataLookup, Event.downloadEv, Event.printDownloadError],
       Except.ok (PyRet.retNone,
         { self with header := some (dictSet hdr "Accept" "application/octet-stream") })) := by
  simp only [afterPoll]
  rw [if_neg hw]
  simp only [access_GET_ok _ _ _ _ _ hm, hb]
  rw [if_neg (show ¬ ¬ record.status = "COMPLETED" by simp [hs])]
  simp only [hh]
  rw [access_GET_err _ _ _ _ _ hd]

/-- Completed record, download response passes `raise_for_status`: the file
is written only when the status code is exactly 200, the save report is
printed either way, and the `Accept` entry is removed again. -/
theorem afterPoll_completed_dlOk (env : SnapshotEnv) (self : LeanIX) (wsid : String)
    (w : Nat) (hdr : List (String × String)) (record : ExportRecord)
    (rest : List ExportRecord) (hw : ¬ self.timeout ≤ w) (hm : respOk env.exportsResp)
    (hb : env.exportsResp.body = record :: rest) (hs : record.status = "COMPLETED")
    (hh : self.header = some hdr) (hd : respOk env.downloadResp) :
    afterPoll env self (some wsid) w =
      (Event.metadataLookup :: Event.downloadEv ::
        ((if env.downloadResp.status_code = 200 then
            [Event.fileWrite (String.replace self.config.EXPORT_FILENAME "{cdate}" env.today)]
          else []) ++
          [Event.printSaved (String.replace self.config.EXPORT_FILENAME "{cdate}" env.today)]),
       Except.ok (PyRet.retNone,
         { self with
             header := some (dictDel (dictSet hdr "Accept" "application/octet-stream") "Accept") })) := by
  simp only [afterPoll]
  rw [if_neg hw]
  simp only [access_GET_ok _ _ _ _ _ hm, hb]
  rw [if_neg (show ¬ ¬ record.status = "COMPLETED" by simp [hs])]
  simp only [hh]
  rw [access_GET_ok _ _ _ _ _ hd]
  simp

/-! ## Trace well-formedness: polls are always freshly authenticated -/

theorem pollAuthed_nil (env : SnapshotEnv) : PollAuthed env [] := by
  intro i n a h
  simp at h

theorem pollAuthed_of_nopoll (env : SnapshotEnv) (tr : List Event)
    (h : ∀ n a, Event.pollEv n a ∉ tr) : PollAuthed env tr := by
  intro i n a hi
  exact absurd (List.get?_mem hi) (h n a)

theorem pollAuthed_cons_nonpoll (env : SnapshotEnv) (e : Event) (tr : List Event)
    (he : ∀ n a, ¬ e = Event.pollEv n a) (h : PollAuthed env tr) :
    PollAuthed env (e :: tr) := by
  intro i n a hi
  cases i with
  | zero =>
    rw [List.get?_cons_zero] at hi
    exact absurd (Option.some.inj hi) (he n a)
  | succ j =>
    rw [List.get?_cons_succ] at hi
    obtain ⟨ha, hj, hconn⟩ := h j n a hi
    refine ⟨ha, Nat.succ_pos j, ?_⟩
    cases j with
    | zero => omega
    | succ j1 =>
      simpa using hconn

theorem pollAuthed_cons_pair (env : SnapshotEnv) (n : Nat) (tr : List Event)
    (h : PollAuthed env tr) :
    PollAuthed env (Event.connectEv n ::
      Event.pollEv n (some ("Bearer " ++ (env.authResp n).body)) :: tr) := by
  intro i m a hi
  match i with
  | 0 =>
    rw [List.get?_cons_zero] at hi
    exact absurd (Option.some.inj hi) (by simp)
  | 1 =>
    rw [List.get?_cons_succ, List.get?_cons_zero] at hi
    obtain ⟨rfl, rfl⟩ := Event.pollEv.inj (Option.some.inj hi)
    exact ⟨rfl, by omega, by simp⟩
  | j + 2 =>
    rw [List.get?_cons_succ, List.get?_cons_succ] at hi
    obtain ⟨ha, hj, hconn⟩ := h j m a hi
    refine ⟨ha, by omega, ?_⟩
    cases j with
    | zero => omega
    | succ j1 =>
      simpa using hconn

/-- Any loop trace, extended by poll-free events, is well-authenticated:
every poll event is directly preceded by the same iteration's
re-authentication and carries exactly that token. -/
theorem pollLoopF_pollAuthed (env : SnapshotEnv) (url : String) :
    ∀ (fuel : Nat) (self : LeanIX) (st ws : Option String) (w n : Nat) (tail : List Event),
      (∀ m a, Event.pollEv m a ∉ tail) →
      PollAuthed env ((pollLoopF env url fuel self st ws w n).1 ++ tail) := by
  intro fuel
  induction fuel with
  | zero =>
    intro self st ws w n tail htail
    by_cases hc : ¬ st = some "DONE" ∧ w < self.timeout
    · rw [pollLoopF]
      rw [if_pos hc]
      exact pollAuthed_of_nopoll env tail (by simpa using htail)
    · rw [pollLoopF_exit env url 0 self st ws w n hc]
      exact pollAuthed_of_nopoll env tail (by simpa using htail)
  | succ fuel1 ih =>
    intro self st ws w n tail htail
    by_cases hc : ¬ st = some "DONE" ∧ w < self.timeout
    · by_cases hauth : respOk (env.authResp n)
      · by_cases hpoll : respOk (env.pollResp n)
        · rw [pollLoopF_succ_ok env url fuel1 self st ws w n hc.1 hc.2 hauth hpoll]
          exact pollAuthed_cons_pair env n _ (ih _ _ _ _ _ tail htail)
        · rw [pollLoopF_succ_pollErr env url fuel1 self st ws w n hc.1 hc.2 hauth
            (not_not.mp hpoll)]
          exact pollAuthed_cons_pair env n tail
            (pollAuthed_of_nopoll env tail (by simpa using htail))
      · rw [pollLoopF_succ_connectErr env url fuel1 self st ws w n hc.1 hc.2
          (not_not.mp hauth)]
        refine pollAuthed_cons_nonpoll env _ tail (by simp) ?_
        exact pollAuthed_of_nopoll env tail (by simpa using htail)
    · rw [pollLoopF_exit env url (fuel1 + 1) self st ws w n hc]
      exact pollAuthed_of_nopoll env tail (by simpa using htail)

/-! ## Error-kind classification -/

/-- A poll-loop exception is always an `HTTPError` (from `connect` or from
the status poll). -/
theorem pollLoopF_exn_http (env : SnapshotEnv) (url : String) :
    ∀ (fuel : Nat) (self : LeanIX) (st ws : Option String) (w n : Nat) (e : PyError),
      (pollLoopF env url fuel self st ws w n).2 = LoopOut.exn e →
      ∃ c, e = PyError.HTTPError c := by
  intro fuel
  induction fuel with
  | zero =>
    intro self st ws w n e he
    by_cases hc : ¬ st = some "DONE" ∧ w < self.timeout
    · rw [pollLoopF] at he
      rw [if_pos hc] at he
      simp at he
    · rw [pollLoopF_exit env url 0 self st ws w n hc] at he
      simp at he
  | succ fuel1 ih =>
    intro self st ws w n e he
    by_cases hc : ¬ st = some "DONE" ∧ w < self.timeout
    · by_cases hauth : respOk (env.authResp n)
      · by_cases hpoll : respOk (env.pollResp n)
        · rw [pollLoopF_succ_ok env url fuel1 self st ws w n hc.1 hc.2 hauth hpoll] at he
          exact ih _ _ _ _ _ e he
        · rw [pollLoopF_succ_pollErr env url fuel1 self st ws w n hc.1 hc.2 hauth
            (not_not.mp hpoll)] at he
          exact ⟨_, (LoopOut.exn.inj he).symm⟩
      · rw [pollLoopF_succ_connectErr env url fuel1 self st ws w n hc.1 hc.2
          (not_not.mp hauth)] at he
        exact ⟨_, (LoopOut.exn.inj he).symm⟩
    · rw [pollLoopF_exit env url (fuel1 + 1) self st ws w n hc] at he
      simp at he

/-- The post-loop phase never produces the artificial `ModelStuck` error. -/
theorem afterPoll_no_modelStuck (env : SnapshotEnv) (self : LeanIX) (ws : Option String)
    (w : Nat) : ¬ (afterPoll env self ws w).2 = Except.error PyError.ModelStuck := by
  by_cases hw : self.timeout ≤ w
  · rw [afterPoll_timeout env self ws w hw]
    simp
  · simp only [afterPoll]
    rw [if_neg hw]
    repeat' split
    all_goals try simp
    all_goals
      rename_i heq
      obtain ⟨hc, -⟩ := access_GET_error_http heq
      simp [hc]

/-- The fuel encoding of the poll loop is invisible in the results of
`take_snapshot`: the artificial `ModelStuck` outcome never occurs. -/
theorem take_snapshot_never_modelStuck (env : SnapshotEnv) (self : LeanIX) :
    ¬ (take_snapshot env self).2 = Except.error PyError.ModelStuck := by
  by_cases htrig : httpRaises env.triggerResp
  · simp only [take_snapshot]
    rw [access_POST_err _ _ _ _ _ htrig]
    simp
  · simp only [take_snapshot]
    rw [access_POST_ok _ _ _ _ _ htrig]
    simp only []
    rcases hL : (pollLoopF env (self.instanceUrl ++ self.base_path ++ "/jobs/" ++
        env.triggerResp.body ++ "/status") self.timeout self Option.none Option.none 0 0).2
      with ⟨self1, st1, ws1, w1⟩ | e | -
    · simp only [hL]
      exact afterPoll_no_modelStuck env self1 ws1 w1
    · obtain ⟨c, rfl⟩ := pollLoopF_exn_http env _ _ _ _ _ _ _ e hL
      simp [hL]
    · exact absurd hL (pollLoopF_no_stuck env _ self.timeout self Option.none Option.none 0 0
        (by omega))

/-! ## Survey-loop lemmas -/

/-- A run loop over results that all pass writes every run's file in order. -/
theorem runsLoop_ok (env : SurveyEnv) (self : LeanIX) (params : List (String × String))
    (today survey : String) :
    ∀ runs : List String, (∀ r ∈ runs, respOk (env.resultResp r)) →
      runsLoop env self params today survey runs =
        (goodRunsTrace self today survey runs, Except.ok ()) := by
  intro runs
  induction runs with
  | nil => intro _; rw [runsLoop, goodRunsTrace]
  | cons run rest ih =>
    intro hok
    rw [runsLoop]
    simp only [access_GET_ok _ _ _ _ _ (hok run (by simp)),
      ih (fun r hr => hok r (by simp [hr])), goodRunsTrace]

/-- A run loop hitting an HTTP error at run `run` stops right there with that
error, keeping the writes of the earlier runs. -/
theorem runsLoop_err (env : SurveyEnv) (self : LeanIX) (params : List (String × String))
    (today survey : String) (run : String) (r2 : List String)
    (hrun : httpRaises (env.resultResp run)) :
    ∀ r1 : List String, (∀ r ∈ r1, respOk (env.resultResp r)) →
      runsLoop env self params today survey (r1 ++ run :: r2) =
        (goodRunsTrace self today survey r1 ++ [Event.resultEv survey run],
         Except.error (PyError.HTTPError (env.resultResp run).status_code)) := by
  intro r1
  induction r1 with
  | nil =>
    intro _
    rw [List.nil_append, runsLoop]
    simp only [access_GET_err _ _ _ _ _ hrun, goodRunsTrace]
    simp
  | cons x rest ih =>
    intro hok
    rw [List.cons_append, runsLoop]
    simp only [access_GET_ok _ _ _ _ _ (hok x (by simp)),
      ih (fun r hr => hok r (by simp [hr])), goodRunsTrace]
    simp

/-- A survey loop over surveys that all pass produces the full trace. -/
theorem surveysLoop_ok (env : SurveyEnv) (self : LeanIX) (params : List (String × String))
    (today : String) :
    ∀ l : List String, goodSurveys env l →
      surveysLoop env self params today l = (goodTrace env self today l, Except.ok ()) := by
  intro l
  induction l with
  | nil => intro _; rw [surveysLoop, goodTrace]
  | cons s rest ih =>
    intro hok
    rw [surveysLoop]
    simp only [access_GET_ok _ _ _ _ _ (hok s (by simp)).1,
      runsLoop_ok env self params today s (env.runsResp s).body (hok s (by simp)).2,
      ih (fun x hx => hok x (by simp [hx])), goodTrace]

/-- A survey loop hitting an HTTP error on the run listing of survey `s`
stops right there with that error, keeping the earlier surveys' trace. -/
theorem surveysLoop_err_runs (env : SurveyEnv) (self : LeanIX)
    (params : List (String × String)) (today : String) (s : String) (l2 : List String)
    (hs : httpRaises (env.runsResp s)) :
    ∀ l1 : List String, goodSurveys env l1 →
      surveysLoop env self params today (l1 ++ s :: l2) =
        (goodTrace env self today l1 ++ [Event.runsEv s],
         Except.error (PyError.HTTPError (env.runsResp s).status_code)) := by
  intro l1
  induction l1 with
  | nil =>
    intro _
    rw [List.nil_append, surveysLoop]
    simp only [access_GET_err _ _ _ _ _ hs, goodTrace]
    simp
  | cons x rest ih =>
    intro hok
    rw [List.cons_append, surveysLoop]
    simp only [access_GET_ok _ _ _ _ _ (hok x (by simp)).1,
      runsLoop_ok env self params today x (env.runsResp x).body (hok x (by simp)).2,
      ih (fun y hy => hok y (by simp [hy])), goodTrace]
    simp

/-- A survey loop hitting an HTTP error on the result download of run `run`
of survey `s` stops right there, keeping all earlier writes. -/
theorem surveysLoop_err_result (env : SurveyEnv) (self : LeanIX)
    (params : List (String × String)) (today : String) (s : String) (l2 : List String)
    (run : String) (r1 r2 : List String) (hsOk : respOk (env.runsResp s))
    (hruns : (env.runsResp s).body = r1 ++ run :: r2)
    (hr1 : ∀ r ∈ r1, respOk (env.resultResp r)) (hrun : httpRaises (env.resultResp run)) :
    ∀ l1 : List String, goodSurveys env l1 →
      surveysLoop env self params today (l1 ++ s :: l2) =
        (goodTrace env self today l1 ++
          (Event.runsEv s :: (goodRunsTrace self today s r1 ++ [Event.resultEv s run])),
         Except.error (PyError.HTTPError (env.resultResp run).status_code)) := by
  intro l1
  induction l1 with
  | nil =>
    intro _
    rw [List.nil_append, surveysLoop]
    simp only [access_GET_ok _ _ _ _ _ hsOk, hruns,
      runsLoop_err env self params today s run r2 hrun r1 hr1, goodTrace]
    simp
  | cons x rest ih =>
    intro hok
    rw [List.cons_append, surveysLoop]
    simp only [access_GET_ok _ _ _ _ _ (hok x (by simp)).1,
      runsLoop_ok env self params today x (env.runsResp x).body (hok x (by simp)).2,
      ih (fun y hy => hok y (by simp [hy])), goodTrace]
    simp

/-- Any error escaping a run loop is an `HTTPError`. -/
theorem runsLoop_error_http (env : SurveyEnv) (self : LeanIX)
    (params : List (String × String)) (today survey : String) :
    ∀ (runs : List String) (e : PyError),
      (runsLoop env self params today survey runs).2 = Except.error e →
      ∃ c, e = PyError.HTTPError c := by
  intro runs
  induction runs with
  | nil =>
    intro e he
    rw [runsLoop] at he
    simp at he
  | cons run rest ih =>
    intro e he
    rw [runsLoop] at he
    rcases hacc : access_leanix_api self (self.instanceUrl ++ self.poll_url ++ "/pollRuns/" ++
        run ++ "/poll_results.xlsx") "GET" Option.none params false (env.resultResp run)
      with e1 | r
    · obtain ⟨hc, -⟩ := access_GET_error_http hacc
      simp only [hacc] at he
      simp at he
      subst he
      exact ⟨_, hc⟩
    · simp only [hacc] at he
      exact ih e he
  
/-- Any error escaping a survey loop is an `HTTPError`. -/
theorem surveysLoop_error_http (env : SurveyEnv) (self : LeanIX)
    (params : List (String × String)) (today : String) :
    ∀ (l : List String) (e : PyError),
      (surveysLoop env self params today l).2 = Except.error e →
      ∃ c, e = PyError.HTTPError c := by
  intro l
  induction l with
  | nil =>
    intro e he
    rw [surveysLoop] at he
    simp at he
  | cons s rest ih =>
    intro e he
    rw [surveysLoop] at he
    rcases hacc : access_leanix_api self (self.instanceUrl ++ self.poll_url ++ "/polls/" ++
        s ++ "/pollRuns") "GET" Option.none params false (env.runsResp s) with e1 | r
    · obtain ⟨hc, -⟩ := access_GET_error_http hacc
      simp only [hacc] at he
      simp at he
      subst he
      exact ⟨_, hc⟩
    · simp only [hacc] at he
      rcases hin : (runsLoop env self params today s r.body).2 with e2 | u
      · obtain ⟨c, rfl⟩ := runsLoop_error_http env self params today s r.body e2 hin
        simp only [hin] at he
        simp at he
        subst he
        exact ⟨c, rfl⟩
      · simp only [hin] at he
        exact ih e he


/-- The gateway's raise step never produces the `None`-dereference error. -/
theorem raise_ne_attributeError {α : Type} (r : HttpResponse α) :
    ¬ raise_for_status r = Except.error PyError.AttributeErrorNone := by
  unfold raise_for_status
  split <;> simp

/-- Unfolding of `take_snapshot` for a run whose poll loop succeeds with the
first `"DONE"` at index `d`. -/
theorem ts_unfold_done (env : SnapshotEnv) (self : LeanIX) (d : Nat)
    (htrig : respOk env.triggerResp)
    (hauth : ∀ k, respOk (env.authResp k))
    (hpoll : ∀ k, respOk (env.pollResp k))
    (hne : ∀ j, j < d → ¬ (env.pollResp j).body.status = "DONE")
    (hd : (env.pollResp d).body.status = "DONE")
    (hwd : 5 * d < self.timeout) :
    take_snapshot env self =
      (Event.triggerEv :: (loopTrace env 0 (d + 1) ++
        (afterPoll env (withBearer self (env.authResp d).body)
          (some (env.pollResp d).body.workspaceId) (5 * (d + 1))).1),
       (afterPoll env (withBearer self (env.authResp d).body)
          (some (env.pollResp d).body.workspaceId) (5 * (d + 1))).2) := by
  have hL := pollLoopF_done env (self.instanceUrl ++ self.base_path ++ "/jobs/" ++
      env.triggerResp.body ++ "/status") hauth hpoll d self.timeout self
      Option.none Option.none 0 0 (fun j hj => by simpa using hne j hj)
      (by simpa using hd) (by simp) (by omega) (by omega)
  simp only [Nat.zero_add] at hL
  simp only [take_snapshot]
  rw [access_POST_ok _ _ _ _ _ htrig]
  simp only [hL]

/-! ## Claims -/

/-- C1 (code-bug evidence).  Claim: with the proxy-required flag set, every
gateway request carries the configured HTTP/HTTPS proxies (and always the
current bearer-token header).  In the code `__init__` guards the proxies with
`proxy_required is True`, comparing the configparser *string* with the
boolean `True` singleton by identity, which fails for every string; hence
`self.proxies` is `None` for every configuration — including `cfgProxyTrue`,
whose flag is set — and no request ever carries proxy settings.  The
bearer-token header half of the claim does hold: every issued request carries
`self.header` (and `self.proxies`, which is `None`). -/
theorem C1_proxies_never_attached :
    (∀ config : Config, (LeanIX.init config).proxies = Option.none) ∧
    cfgProxyTrue.PROXY_REQUIRED = "True" ∧
    (LeanIX.init cfgProxyTrue).proxies = Option.none ∧
    (∀ (self : LeanIX) (url : String) (payload : Option String)
        (params : List (String × String)) (stream : Bool),
      (issuedRequest self url "GET" payload params stream).map Request.headers
          = some self.header ∧
      (issuedRequest self url "GET" payload params stream).map Request.proxies
          = some self.proxies) ∧
    (∀ (self : LeanIX) (url : String) (payload : Option String)
        (params : List (String × String)) (stream : Bool),
      (issuedRequest self url "POST" payload params stream).map Request.headers
          = some self.header ∧
      (issuedRequest self url "POST" payload params stream).map Request.proxies
          = some self.proxies) ∧
    (∀ (self : LeanIX) (url : String) (payload : Option String)
        (params : List (String × String)) (stream : Bool),
      (issuedRequest self url "PUT" payload params stream).map Request.headers
          = some self.header ∧
      (issuedRequest self url "PUT" payload params stream).map Request.proxies
          = some self.proxies) := by
  refine ⟨fun config => rfl, rfl, rfl, ?_, ?_, ?_⟩ <;>
    intro self url payload params stream <;>
    exact ⟨by simp [issuedRequest], by simp [issuedRequest]⟩

/-- C10.  `access_leanix_api` is safe exactly for the methods `GET`, `POST`
and `PUT`: for those a request is issued and the `None`-response dereference
cannot happen; for any other method string no request is issued and the call
fails with the (non-HTTP) `AttributeError` from `None.raise_for_status()`. -/
theorem C10_method_precondition {α : Type} (self : LeanIX) (url : String)
    (payload : Option String) (params : List (String × String)) (stream : Bool)
    (resp : HttpResponse α) (method : String) :
    ((method = "GET" ∨ method = "POST" ∨ method = "PUT") →
      ¬ issuedRequest self url method payload params stream = Option.none ∧
      ¬ access_leanix_api self url method payload params stream resp
          = Except.error PyError.AttributeErrorNone) ∧
    (¬ (method = "GET" ∨ method = "POST" ∨ method = "PUT") →
      issuedRequest self url method payload params stream = Option.none ∧
      access_leanix_api self url method payload params stream resp
        = Except.error PyError.AttributeErrorNone) := by
  constructor
  · rintro (rfl | rfl | rfl) <;>
      exact ⟨by simp [issuedRequest],
        by simp only [access_leanix_api, issuedRequest]; simp [raise_ne_attributeError resp]⟩
  · intro h
    have hg : ¬ method = "GET" := fun hc => h (Or.inl hc)
    have hp : ¬ method = "POST" := fun hc => h (Or.inr (Or.inl hc))
    have hu : ¬ method = "PUT" := fun hc => h (Or.inr (Or.inr hc))
    exact ⟨by simp [issuedRequest, hg, hp, hu],
      by simp [access_leanix_api, issuedRequest, hg, hp, hu]⟩

/-- Witness for C10: at method `"DELETE"` no request is issued and the call
fails with the `AttributeError`; at method `"GET"` it cannot. -/
theorem C10_witness :
    (issuedRequest lx0 "https://u" "DELETE" Option.none [] false = Option.none ∧
     access_leanix_api lx0 "https://u" "DELETE" Option.none [] false respU
       = Except.error PyError.AttributeErrorNone) ∧
    ¬ access_leanix_api lx0 "https://u" "GET" Option.none [] false respU
       = Except.error PyError.AttributeErrorNone :=
  ⟨(C10_method_precondition lx0 "https://u" Option.none [] false respU "DELETE").2 (by decide),
   ((C10_method_precondition lx0 "https://u" Option.none [] false respU "GET").1
     (Or.inl rfl)).2⟩

/-- C5.  For every job-status sequence that never reaches `"DONE"`,
`take_snapshot` runs into the timeout, reports it, and returns `False` —
no exception is raised for the timeout, and neither the metadata lookup nor
the binary download is ever issued (hence no file is written). -/
theorem C5_timeout_returns_false (env : SnapshotEnv) (self : LeanIX)
    (htrig : respOk env.triggerResp)
    (hauth : ∀ k, respOk (env.authResp k))
    (hpoll : ∀ k, respOk (env.pollResp k))
    (hnever : ∀ k, ¬ (env.pollResp k).body.status = "DONE") :
    tsResult env self = Except.ok PyRet.retFalse ∧
    Event.printTimeout ∈ tsEvents env self ∧
    Event.metadataLookup ∉ tsEvents env self ∧
    Event.downloadEv ∉ tsEvents env self ∧
    ∀ f, Event.fileWrite f ∉ tsEvents env self := by
  obtain ⟨s1, st1, ws1, w1, hL, hw1, hti⟩ := pollLoopF_timeout env
    (self.instanceUrl ++ self.base_path ++ "/jobs/" ++ env.triggerResp.body ++ "/status")
    hauth hpoll hnever self.timeout self Option.none Option.none 0 0 (by simp) (by omega)
  have hts : take_snapshot env self =
      (Event.triggerEv ::
        ((pollLoopF env (self.instanceUrl ++ self.base_path ++ "/jobs/" ++
            env.triggerResp.body ++ "/status") self.timeout self Option.none Option.none
            0 0).1 ++ [Event.printTimeout]),
       Except.ok (PyRet.retFalse, s1)) := by
    simp only [take_snapshot]
    rw [access_POST_ok _ _ _ _ _ htrig]
    simp only [hL]
    rw [afterPoll_timeout env s1 ws1 w1 (by rw [hti]; exact hw1)]
  have hLev := pollLoopF_events env (self.instanceUrl ++ self.base_path ++ "/jobs/" ++
    env.triggerResp.body ++ "/status") self.timeout self Option.none Option.none 0 0
  refine ⟨?_, ?_, ?_, ?_, ?_⟩
  · simp [tsResult, hts, Except.map]
  · simp [tsEvents, hts]
  · simp only [tsEvents, hts]
    intro hmem
    simp only [List.mem_cons, List.mem_append, List.mem_singleton] at hmem
    rcases hmem with h1 | h2 | h3
    · exact absurd h1 (by simp)
    · rcases hLev Event.metadataLookup h2 with ⟨m, hm⟩ | ⟨m, a, hm⟩ <;> simp at hm
    · exact absurd h3 (by simp)
  · simp only [tsEvents, hts]
    intro hmem
    simp only [List.mem_cons, List.mem_append, List.mem_singleton] at hmem
    rcases hmem with h1 | h2 | h3
    · exact absurd h1 (by simp)
    · rcases hLev Event.downloadEv h2 with ⟨m, hm⟩ | ⟨m, a, hm⟩ <;> simp at hm
    · exact absurd h3 (by simp)
  · intro f
    simp only [tsEvents, hts]
    intro hmem
    simp only [List.mem_cons, List.mem_append, List.mem_singleton] at hmem
    rcases hmem with h1 | h2 | h3
    · exact absurd h1 (by simp)
    · rcases hLev (Event.fileWrite f) h2 with ⟨m, hm⟩ | ⟨m, a, hm⟩ <;> simp at hm
    · exact absurd h3 (by simp)

/-- Witness for C5 on the concrete environment whose polls all report
`IN_PROGRESS`. -/
theorem C5_witness :
    tsResult envNeverDone lx0 = Except.ok PyRet.retFalse ∧
    Event.printTimeout ∈ tsEvents envNeverDone lx0 ∧
    Event.metadataLookup ∉ tsEvents envNeverDone lx0 ∧
    Event.downloadEv ∉ tsEvents envNeverDone lx0 ∧
    ∀ f, Event.fileWrite f ∉ tsEvents envNeverDone lx0 :=
  C5_timeout_returns_false envNeverDone lx0 (by decide)
    (fun k => by show respOk { status_code := 200, body := ("tok" : String) }; decide)
    (fun k => by show respOk (jobOk "IN_PROGRESS"); decide)
    (fun k => by show ¬ (jobOk "IN_PROGRESS").body.status = "DONE"; decide)

/-- C2 (amended).  If the first `"DONE"` is observed at poll index `d` and
the incremented elapsed-time counter `5 * (d + 1)` is still strictly below
the timeout, `take_snapshot` leaves the poll loop and performs the
export-metadata lookup exactly once, and the timeout-failure path is not
taken.  (As stated, the claim also covered `"DONE"` observed at the last
poll before the timeout — `5 * d < timeout` but `5 * (d + 1) = timeout` —
where the code takes the timeout path instead; see `C2_counterexample`.) -/
theorem C2_metadata_once (env : SnapshotEnv) (self : LeanIX) (d : Nat)
    (htrig : respOk env.triggerResp)
    (hauth : ∀ k, respOk (env.authResp k))
    (hpoll : ∀ k, respOk (env.pollResp k))
    (hne : ∀ j, j < d → ¬ (env.pollResp j).body.status = "DONE")
    (hd : (env.pollResp d).body.status = "DONE")
    (hdeadline : 5 * (d + 1) < self.timeout) :
    (tsEvents env self).count Event.metadataLookup = 1 ∧
    Event.printTimeout ∉ tsEvents env self := by
  have hL := pollLoopF_done env (self.instanceUrl ++ self.base_path ++ "/jobs/" ++
      env.triggerResp.body ++ "/status") hauth hpoll d self.timeout self
      Option.none Option.none 0 0 (fun j hj => by simpa using hne j hj)
      (by simpa using hd) (by simp) (by omega) (by omega)
  simp only [Nat.zero_add] at hL
  have hts : take_snapshot env self =
      (Event.triggerEv :: (loopTrace env 0 (d + 1) ++
        (afterPoll env (withBearer self (env.authResp d).body)
          (some (env.pollResp d).body.workspaceId) (5 * (d + 1))).1),
       (afterPoll env (withBearer self (env.authResp d).body)
          (some (env.pollResp d).body.workspaceId) (5 * (d + 1))).2) := by
    simp only [take_snapshot]
    rw [access_POST_ok _ _ _ _ _ htrig]
    simp only [hL]
  have hw : ¬ (withBearer self (env.authResp d).body).timeout ≤ 5 * (d + 1) := by
    simp [withBearer]
    omega
  have hmeta := afterPoll_meta_once env (withBearer self (env.authResp d).body)
    (some (env.pollResp d).body.workspaceId) (5 * (d + 1)) hw
  have hloopcount : (loopTrace env 0 (d + 1)).count Event.metadataLookup = 0 := by
    refine List.count_eq_zero.mpr ?_
    intro hmem
    rcases loopTrace_events env (d + 1) 0 _ hmem with ⟨m, hm⟩ | ⟨m, a, hm⟩ <;> simp at hm
  constructor
  · simp only [tsEvents, hts, List.count_cons, List.count_append]
    simp [hloopcount, hmeta.1]
  · simp only [tsEvents, hts]
    intro hmem
    simp only [List.mem_cons, List.mem_append] at hmem
    rcases hmem with h1 | h2 | h3
    · exact absurd h1 (by simp)
    · rcases loopTrace_events env (d + 1) 0 _ h2 with ⟨m, hm⟩ | ⟨m, a, hm⟩ <;> simp at hm
    · exact absurd h3 hmeta.2

/-- Witness for the amended C2: `"DONE"` at the very first poll. -/
theorem C2_witness :
    (tsEvents envOK lx0).count Event.metadataLookup = 1 ∧
    Event.printTimeout ∉ tsEvents envOK lx0 :=
  C2_metadata_once envOK lx0 0 (by decide)
    (fun k => by show respOk { status_code := 200, body := ("tok" : String) }; decide)
    (fun k => by show respOk (jobOk "DONE"); decide)
    (fun j hj => absurd hj (by omega))
    (by decide) (by decide)

/-- Counterexample to C2 as stated: with the job first `"DONE"` at poll index
1439 — observed while the elapsed counter is 7195, still strictly below the
7200-second timeout — `take_snapshot` nevertheless takes the timeout-failure
path: the counter reaches 7200 right after that poll, the metadata lookup is
never performed, and the method returns `False`. -/
theorem C2_counterexample :
    (envC2.pollResp 1439).body.status = "DONE" ∧
    5 * 1439 < lx0.timeout ∧
    Event.pollEv 1439 (some "Bearer tok") ∈ tsEvents envC2 lx0 ∧
    (tsEvents envC2 lx0).count Event.metadataLookup = 0 ∧
    Event.printTimeout ∈ tsEvents envC2 lx0 ∧
    tsResult envC2 lx0 = Except.ok PyRet.retFalse := by
  have hauth : ∀ k, respOk (envC2.authResp k) := fun k => by
    show ¬ (400 ≤ (200 : Nat) ∧ (200 : Nat) < 600)
    decide
  have hpoll : ∀ k, respOk (envC2.pollResp k) := fun k => by
    show ¬ (400 ≤ (200 : Nat) ∧ (200 : Nat) < 600)
    decide
  have hL := pollLoopF_done envC2 (lx0.instanceUrl ++ lx0.base_path ++ "/jobs/" ++
      envC2.triggerResp.body ++ "/status") hauth hpoll 1439 lx0.timeout lx0
      Option.none Option.none 0 0
      (fun j hj => by
        show ¬ (if 0 + j < 1439 then "IN_PROGRESS" else "DONE") = "DONE"
        rw [if_pos (by omega)]
        decide)
      (by
        show (if 0 + 1439 < 1439 then "IN_PROGRESS" else "DONE") = "DONE"
        rw [if_neg (by omega)])
      (by simp) (by show 0 + 5 * 1439 < lx0.timeout; decide)
      (by show 1439 < lx0.timeout; decide)
  simp only [Nat.zero_add] at hL
  have hts : take_snapshot envC2 lx0 =
      (Event.triggerEv :: (loopTrace envC2 0 1440 ++ [Event.printTimeout]),
       Except.ok (PyRet.retFalse, withBearer lx0 (envC2.authResp 1439).body)) := by
    simp only [take_snapshot]
    rw [access_POST_ok _ _ _ _ _ (by decide : respOk envC2.triggerResp)]
    simp only [hL]
    rw [afterPoll_timeout envC2 _ _ _ (by show lx0.timeout ≤ 5 * (1439 + 1); decide)]
  refine ⟨?_, by decide, ?_, ?_, ?_, ?_⟩
  · show (if 1439 < 1439 then "IN_PROGRESS" else "DONE") = "DONE"
    rw [if_neg (by omega)]
  · have hmem := pollEv_mem_loopTrace envC2 1440 0 1439 (by omega)
    simp only [tsEvents, hts, List.mem_cons, List.mem_append]
    refine Or.inr (Or.inl ?_)
    have heq : (some ("Bearer " ++ (envC2.authResp (0 + 1439)).body) : Option String)
        = some "Bearer tok" := by decide
    rw [heq] at hmem
    simpa using hmem
  · have hloopcount : (loopTrace envC2 0 1440).count Event.metadataLookup = 0 := by
      refine List.count_eq_zero.mpr ?_
      intro hmem
      rcases loopTrace_events envC2 1440 0 _ hmem with ⟨m, hm⟩ | ⟨m, a, hm⟩ <;> simp at hm
    simp [tsEvents, hts, List.count_cons, List.count_append, hloopcount]
  · simp [tsEvents, hts]
  · simp [tsResult, hts, Except.map]

/-- C4.  An HTTP error at the binary-download step is caught, reported, and
`take_snapshot` returns normally (`None`); an HTTP error at the export
trigger, at any status poll, or at the metadata lookup is not caught and
propagates to the caller. -/
theorem C4_error_propagation (env : SnapshotEnv) (self : LeanIX) :
    (httpRaises env.triggerResp →
      tsResult env self = Except.error (PyError.HTTPError env.triggerResp.status_code)) ∧
    (∀ d, respOk env.triggerResp → (∀ k, respOk (env.authResp k)) →
      (∀ j, j < d → respOk (env.pollResp j) ∧ ¬ (env.pollResp j).body.status = "DONE") →
      httpRaises (env.pollResp d) → 5 * d < self.timeout →
      tsResult env self = Except.error (PyError.HTTPError (env.pollResp d).status_code)) ∧
    (∀ d, respOk env.triggerResp → (∀ k, respOk (env.authResp k)) →
      (∀ k, respOk (env.pollResp k)) →
      (∀ j, j < d → ¬ (env.pollResp j).body.status = "DONE") →
      (env.pollResp d).body.status = "DONE" → 5 * (d + 1) < self.timeout →
      httpRaises env.exportsResp →
      tsResult env self = Except.error (PyError.HTTPError env.exportsResp.status_code)) ∧
    (∀ d record rest, respOk env.triggerResp → (∀ k, respOk (env.authResp k)) →
      (∀ k, respOk (env.pollResp k)) →
      (∀ j, j < d → ¬ (env.pollResp j).body.status = "DONE") →
      (env.pollResp d).body.status = "DONE" → 5 * (d + 1) < self.timeout →
      respOk env.exportsResp → env.exportsResp.body = record :: rest →
      record.status = "COMPLETED" → httpRaises env.downloadResp →
      tsResult env self = Except.ok PyRet.retNone ∧
      Event.printDownloadError ∈ tsEvents env self) := by
  refine ⟨?_, ?_, ?_, ?_⟩
  · intro h
    simp only [tsResult, take_snapshot]
    rw [access_POST_err _ _ _ _ _ h]
    simp [Except.map]
  · intro d htrig hauth hpre hdl hwd
    have hL := pollLoopF_pollError env (self.instanceUrl ++ self.base_path ++ "/jobs/" ++
        env.triggerResp.body ++ "/status") hauth d self.timeout self
        Option.none Option.none 0 0 (fun j hj => by simpa using hpre j hj)
        (by simpa using hdl) (by simp) (by omega) (by omega)
    simp only [Nat.zero_add] at hL
    simp only [tsResult, take_snapshot]
    rw [access_POST_ok _ _ _ _ _ htrig]
    simp only [hL]
    simp [Except.map]
  · intro d htrig hauth hpoll hne hd hdeadline hms
    have hts := ts_unfold_done env self d htrig hauth hpoll hne hd (by omega)
    have hap := afterPoll_metaErr env (withBearer self (env.authResp d).body)
      (some (env.pollResp d).body.workspaceId) (5 * (d + 1))
      (by simp only [withBearer]; simp; omega) hms
    simp [tsResult, hts, hap, Except.map]
  · intro d record rest htrig hauth hpoll hne hd hdeadline hm hb hs hdl
    have hts := ts_unfold_done env self d htrig hauth hpoll hne hd (by omega)
    have hap := afterPoll_completed_dlErr env (withBearer self (env.authResp d).body)
      ((env.pollResp d).body.workspaceId) (5 * (d + 1))
      (bearerHdr (env.authResp d).body) record rest
      (by simp only [withBearer]; simp; omega) hm hb hs rfl hdl
    constructor
    · simp [tsResult, hts, hap, Except.map]
    · simp [tsEvents, hts, hap]

/-- Witness for C4 on the concrete environment whose download fails with
HTTP 500: the error is caught and `take_snapshot` returns `None`. -/
theorem C4_witness :
    tsResult envDl500 lx0 = Except.ok PyRet.retNone ∧
    Event.printDownloadError ∈ tsEvents envDl500 lx0 :=
  (C4_error_propagation envDl500 lx0).2.2.2 0
    { status := "COMPLETED", downloadKey := "key1" } [] (by decide)
    (fun k => by show ¬ (400 ≤ (200 : Nat) ∧ (200 : Nat) < 600); decide)
    (fun k => by show ¬ (400 ≤ (200 : Nat) ∧ (200 : Nat) < 600); decide)
    (fun j hj => absurd hj (by omega))
    (by decide) (by decide) (by decide) (by decide) (by decide) (by decide)

/-- C6.  When the freshest export record's status is not `"COMPLETED"`,
`take_snapshot` reports it and returns `False` without issuing the binary
download and without writing any file. -/
theorem C6_not_completed (env : SnapshotEnv) (self : LeanIX) (d : Nat)
    (record : ExportRecord) (rest : List ExportRecord)
    (htrig : respOk env.triggerResp)
    (hauth : ∀ k, respOk (env.authResp k))
    (hpoll : ∀ k, respOk (env.pollResp k))
    (hne : ∀ j, j < d → ¬ (env.pollResp j).body.status = "DONE")
    (hd : (env.pollResp d).body.status = "DONE")
    (hdeadline : 5 * (d + 1) < self.timeout)
    (hm : respOk env.exportsResp) (hb : env.exportsResp.body = record :: rest)
    (hs : ¬ record.status = "COMPLETED") :
    tsResult env self = Except.ok PyRet.retFalse ∧
    Event.downloadEv ∉ tsEvents env self ∧
    (∀ f, Event.fileWrite f ∉ tsEvents env self) ∧
    Event.printNotCompleted record.status ∈ tsEvents env self := by
  have hts := ts_unfold_done env self d htrig hauth hpoll hne hd (by omega)
  have hap := afterPoll_notCompleted env (withBearer self (env.authResp d).body)
    (some (env.pollResp d).body.workspaceId) (5 * (d + 1)) record rest
    (by simp only [withBearer]; simp; omega) hm hb hs
  refine ⟨by simp [tsResult, hts, hap, Except.map], ?_, ?_, by simp [tsEvents, hts, hap]⟩
  · simp only [tsEvents, hts, hap]
    intro hmem
    simp only [List.mem_cons, List.mem_append] at hmem
    rcases hmem with h1 | h2 | h3
    · exact absurd h1 (by simp)
    · rcases loopTrace_events env (d + 1) 0 _ h2 with ⟨m, hm2⟩ | ⟨m, a, hm2⟩ <;> simp at hm2
    · simp at h3
  · intro f
    simp only [tsEvents, hts, hap]
    intro hmem
    simp only [List.mem_cons, List.mem_append] at hmem
    rcases hmem with h1 | h2 | h3
    · exact absurd h1 (by simp)
    · rcases loopTrace_events env (d + 1) 0 _ h2 with ⟨m, hm2⟩ | ⟨m, a, hm2⟩ <;> simp at hm2
    · simp at h3

/-- Witness for C6 on the concrete environment whose export record reports
`IN_PROGRESS`. -/
theorem C6_witness :
    tsResult envNC lx0 = Except.ok PyRet.retFalse ∧
    Event.downloadEv ∉ tsEvents envNC lx0 ∧
    (∀ f, Event.fileWrite f ∉ tsEvents envNC lx0) ∧
    Event.printNotCompleted
        ({ status := "IN_PROGRESS", downloadKey := "key1" } : ExportRecord).status
      ∈ tsEvents envNC lx0 :=
  C6_not_completed envNC lx0 0 { status := "IN_PROGRESS", downloadKey := "key1" } []
    (by decide)
    (fun k => by show ¬ (400 ≤ (200 : Nat) ∧ (200 : Nat) < 600); decide)
    (fun k => by show ¬ (400 ≤ (200 : Nat) ∧ (200 : Nat) < 600); decide)
    (fun j hj => absurd hj (by omega))
    (by decide) (by decide) (by decide) (by decide) (by decide)

/-- C9.  On the reached download step with a response that passes the
gateway's error check, the snapshot file is opened and written exactly when
the status code is 200; for any other passing status code no file is
created, yet the `Saved to file` report is still printed and the method
returns as on success (`None`). -/
theorem C9_write_only_on_200 (env : SnapshotEnv) (self : LeanIX) (d : Nat)
    (record : ExportRecord) (rest : List ExportRecord)
    (htrig : respOk env.triggerResp)
    (hauth : ∀ k, respOk (env.authResp k))
    (hpoll : ∀ k, respOk (env.pollResp k))
    (hne : ∀ j, j < d → ¬ (env.pollResp j).body.status = "DONE")
    (hd : (env.pollResp d).body.status = "DONE")
    (hdeadline : 5 * (d + 1) < self.timeout)
    (hm : respOk env.exportsResp) (hb : env.exportsResp.body = record :: rest)
    (hs : record.status = "COMPLETED") (hdl : respOk env.downloadResp) :
    (env.downloadResp.status_code = 200 →
      Event.fileWrite (String.replace self.config.EXPORT_FILENAME "{cdate}" env.today)
        ∈ tsEvents env self) ∧
    (¬ env.downloadResp.status_code = 200 →
      ∀ f, Event.fileWrite f ∉ tsEvents env self) ∧
    Event.printSaved (String.replace self.config.EXPORT_FILENAME "{cdate}" env.today)
      ∈ tsEvents env self ∧
    tsResult env self = Except.ok PyRet.retNone := by
  have hts := ts_unfold_done env self d htrig hauth hpoll hne hd (by omega)
  have hap := afterPoll_completed_dlOk env (withBearer self (env.authResp d).body)
    ((env.pollResp d).body.workspaceId) (5 * (d + 1))
    (bearerHdr (env.authResp d).body) record rest
    (by simp only [withBearer]; simp; omega) hm hb hs rfl hdl
  refine ⟨?_, ?_, ?_, ?_⟩
  · intro h200
    simp only [tsEvents, hts, hap]
    simp [h200, withBearer]
  · intro hn200 f
    simp only [tsEvents, hts, hap]
    intro hmem
    simp only [hn200, if_false, List.mem_cons, List.mem_append] at hmem
    rcases hmem with h1 | h2 | h3
    · exact absurd h1 (by simp)
    · rcases loopTrace_events env (d + 1) 0 _ h2 with ⟨m, hm2⟩ | ⟨m, a, hm2⟩ <;> simp at hm2
    · simp at h3
  · simp only [tsEvents, hts, hap]
    by_cases h200 : env.downloadResp.status_code = 200 <;> simp [h200, withBearer]
  · simp [tsResult, hts, hap, Except.map]

/-- Witness for C9 on the concrete environment whose download answers
HTTP 204: no file write, yet the save report and the success return. -/
theorem C9_witness :
    (envDl204.downloadResp.status_code = 200 →
      Event.fileWrite (String.replace lx0.config.EXPORT_FILENAME "{cdate}" envDl204.today)
        ∈ tsEvents envDl204 lx0) ∧
    (¬ envDl204.downloadResp.status_code = 200 →
      ∀ f, Event.fileWrite f ∉ tsEvents envDl204 lx0) ∧
    Event.printSaved (String.replace lx0.config.EXPORT_FILENAME "{cdate}" envDl204.today)
      ∈ tsEvents envDl204 lx0 ∧
    tsResult envDl204 lx0 = Except.ok PyRet.retNone :=
  C9_write_only_on_200 envDl204 lx0 0 { status := "COMPLETED", downloadKey := "key1" } []
    (by decide)
    (fun k => by show ¬ (400 ≤ (200 : Nat) ∧ (200 : Nat) < 600); decide)
    (fun k => by show ¬ (400 ≤ (200 : Nat) ∧ (200 : Nat) < 600); decide)
    (fun j hj => absurd hj (by omega))
    (by decide) (by decide) (by decide) (by decide) (by decide) (by decide)

/-- C3 (amended).  On the success path of the download step the temporary
`Accept` entry is removed again, restoring the header to exactly its
pre-download state (the bearer header of the last re-authentication); on the
caught-HTTP-error path the `except` clause returns before the
`del self.header["Accept"]`, so the method ends with the `Accept` entry still
set to the octet-stream type.  On both paths every other header field is
unchanged.  (As stated, the claim also promised removal on the caught-error
path; see `C3_counterexample`.) -/
theorem C3_accept_header (env : SnapshotEnv) (self : LeanIX) (d : Nat)
    (record : ExportRecord) (rest : List ExportRecord)
    (htrig : respOk env.triggerResp)
    (hauth : ∀ k, respOk (env.authResp k))
    (hpoll : ∀ k, respOk (env.pollResp k))
    (hne : ∀ j, j < d → ¬ (env.pollResp j).body.status = "DONE")
    (hd : (env.pollResp d).body.status = "DONE")
    (hdeadline : 5 * (d + 1) < self.timeout)
    (hm : respOk env.exportsResp) (hb : env.exportsResp.body = record :: rest)
    (hs : record.status = "COMPLETED") :
    (respOk env.downloadResp →
      tsState env self = Except.ok (withBearer self (env.authResp d).body)) ∧
    (httpRaises env.downloadResp →
      tsState env self = Except.ok
        { withBearer self (env.authResp d).body with
          header := some (dictSet (bearerHdr (env.authResp d).body) "Accept"
            "application/octet-stream") } ∧
      dictGet (dictSet (bearerHdr (env.authResp d).body) "Accept"
        "application/octet-stream") "Accept" = some "application/octet-stream" ∧
      dictGet (bearerHdr (env.authResp d).body) "Accept" = Option.none ∧
      ∀ k, ¬ k = "Accept" →
        dictGet (dictSet (bearerHdr (env.authResp d).body) "Accept"
          "application/octet-stream") k = dictGet (bearerHdr (env.authResp d).body) k) := by
  have hts := ts_unfold_done env self d htrig hauth hpoll hne hd (by omega)
  constructor
  · intro hdl
    have hap := afterPoll_completed_dlOk env (withBearer self (env.authResp d).body)
      ((env.pollResp d).body.workspaceId) (5 * (d + 1))
      (bearerHdr (env.authResp d).body) record rest
      (by simp only [withBearer]; simp; omega) hm hb hs rfl hdl
    rw [dictSet_bearer_accept, dictDel_bearer_accept] at hap
    simp only [tsState, hts]
    rw [hap]
    simp [Except.map, withBearer]
  · intro hdl
    have hap := afterPoll_completed_dlErr env (withBearer self (env.authResp d).body)
      ((env.pollResp d).body.workspaceId) (5 * (d + 1))
      (bearerHdr (env.authResp d).body) record rest
      (by simp only [withBearer]; simp; omega) hm hb hs rfl hdl
    refine ⟨?_, dictGet_bearer_accept_set _ _, ?_,
      fun k hk => dictGet_bearer_accept_set_ne _ _ k hk⟩
    · simp only [tsState, hts]
      rw [hap]
      simp [Except.map, withBearer]
    · simp [dictGet, bearerHdr, List.find?]

/-- Witness for the amended C3: on the fully successful environment the
final header is exactly the pre-download bearer header again. -/
theorem C3_witness :
    tsState envOK lx0 = Except.ok (withBearer lx0 (envOK.authResp 0).body) :=
  (C3_accept_header envOK lx0 0 { status := "COMPLETED", downloadKey := "key1" } []
    (by decide)
    (fun k => by show ¬ (400 ≤ (200 : Nat) ∧ (200 : Nat) < 600); decide)
    (fun k => by show ¬ (400 ≤ (200 : Nat) ∧ (200 : Nat) < 600); decide)
    (fun j hj => absurd hj (by omega))
    (by decide) (by decide) (by decide) (by decide) (by decide)).1 (by decide)

/-- Counterexample to C3 as stated: on the environment whose download fails
with HTTP 500 the error is caught and `take_snapshot` returns, but the
`Accept: application/octet-stream` entry is still present in the final
header — it is not removed on that execution path. -/
theorem C3_counterexample :
    tsState envDl500 lx0 = Except.ok lxAcceptStuck ∧
    lxAcceptStuck.header = some [("Authorization", "Bearer tok"),
      ("Accept", "application/octet-stream")] ∧
    dictGet [("Authorization", "Bearer tok"), ("Accept", "application/octet-stream")]
      "Accept" = some "application/octet-stream" ∧
    tsResult envDl500 lx0 = Except.ok PyRet.retNone := by
  refine ⟨?_, rfl, by decide, ?_⟩
  · rfl
  · rfl

/-- C7.  In `download_surveys` every HTTP error — at the survey listing, at
any survey's run listing, or at any run's result download — is caught by the
single `try` around the whole workflow: the method returns normally (never
re-raises), nothing after the failing step is attempted, and the trace up to
the failure (including all files already written for earlier surveys and
runs, in order) is exactly preserved. -/
theorem C7_survey_abort (env : SurveyEnv) (self : LeanIX) (today : String) :
    ((download_surveys env self today).2 = Except.ok ()) ∧
    (httpRaises env.pollsResp →
      download_surveys env self today =
        ([Event.surveysListEv, Event.printSurveyError], Except.ok ())) ∧
    (∀ l1 s l2, respOk env.pollsResp → env.pollsResp.body = l1 ++ s :: l2 →
      goodSurveys env l1 → httpRaises (env.runsResp s) →
      download_surveys env self today =
        (Event.surveysListEv :: ((goodTrace env self today l1 ++ [Event.runsEv s]) ++
          [Event.printSurveyError]), Except.ok ())) ∧
    (∀ l1 s l2 r1 run r2, respOk env.pollsResp → env.pollsResp.body = l1 ++ s :: l2 →
      goodSurveys env l1 → respOk (env.runsResp s) →
      (env.runsResp s).body = r1 ++ run :: r2 →
      (∀ r ∈ r1, respOk (env.resultResp r)) → httpRaises (env.resultResp run) →
      download_surveys env self today =
        (Event.surveysListEv :: ((goodTrace env self today l1 ++
          (Event.runsEv s :: (goodRunsTrace self today s r1 ++ [Event.resultEv s run]))) ++
          [Event.printSurveyError]), Except.ok ())) := by
  refine ⟨?_, ?_, ?_, ?_⟩
  · by_cases hp : httpRaises env.pollsResp
    · simp only [download_surveys]
      simp [access_GET_err _ _ _ _ _ hp]
    · simp only [download_surveys]
      simp only [access_GET_ok _ _ _ _ _ hp]
      rcases hb : (surveysLoop env self [("workspaceId", self.config.WORKSPACEID)] today
          env.pollsResp.body).2 with e | u
      · obtain ⟨c, rfl⟩ := surveysLoop_error_http env self _ today _ e hb
        simp [hb]
      · simp [hb]
  · intro hp
    simp only [download_surveys]
    simp [access_GET_err _ _ _ _ _ hp]
  · intro l1 s l2 hp hb hgood hruns
    simp only [download_surveys]
    simp only [access_GET_ok _ _ _ _ _ hp, hb]
    rw [surveysLoop_err_runs env self [("workspaceId", self.config.WORKSPACEID)] today s l2
      hruns l1 hgood]
  · intro l1 s l2 r1 run r2 hp hb hgood hsOk hrb hr1 hrun
    simp only [download_surveys]
    simp only [access_GET_ok _ _ _ _ _ hp, hb]
    rw [surveysLoop_err_result env self [("workspaceId", self.config.WORKSPACEID)] today s l2
      run r1 r2 hsOk hrb hr1 hrun l1 hgood]

/-- Witness for C7 on the concrete survey environment: the run listing of
survey `"s2"` fails with HTTP 500; survey `"s1"` was fully processed, survey
`"s3"` is never touched, and the method returns normally. -/
theorem C7_witness :
    download_surveys envSurvey lx0 "2024-03-05" =
      (Event.surveysListEv :: ((goodTrace envSurvey lx0 "2024-03-05" ["s1"] ++
        [Event.runsEv "s2"]) ++ [Event.printSurveyError]), Except.ok ()) :=
  (C7_survey_abort envSurvey lx0 "2024-03-05").2.2.1 ["s1"] "s2" ["s3"]
    (by decide) (by decide) (by unfold goodSurveys; decide) (by decide)

/-- C8.  In the event trace of any `take_snapshot` run, every status poll is
strictly preceded — at the directly previous position — by the
re-authentication of the same loop iteration, and the `Authorization`
header value it carries is exactly the bearer token that re-authentication
returned. -/
theorem C8_poll_freshly_authenticated (env : SnapshotEnv) (self : LeanIX) :
    ∀ i n a, (tsEvents env self).get? i = some (Event.pollEv n a) →
      a = some ("Bearer " ++ (env.authResp n).body) ∧ 0 < i ∧
      (tsEvents env self).get? (i - 1) = some (Event.connectEv n) := by
  have main : PollAuthed env (tsEvents env self) := by
    by_cases htrig : httpRaises env.triggerResp
    · simp only [tsEvents, take_snapshot]
      rw [access_POST_err _ _ _ _ _ htrig]
      exact pollAuthed_cons_nonpoll env _ [] (by simp) (pollAuthed_nil env)
    · simp only [tsEvents, take_snapshot]
      rw [access_POST_ok _ _ _ _ _ htrig]
      rcases hL : (pollLoopF env (self.instanceUrl ++ self.base_path ++ "/jobs/" ++
          env.triggerResp.body ++ "/status") self.timeout self Option.none Option.none
          0 0).2 with ⟨s1, st1, ws1, w1⟩ | e | -
      · simp only [hL]
        refine pollAuthed_cons_nonpoll env _ _ (by simp) ?_
        exact pollLoopF_pollAuthed env _ self.timeout self Option.none Option.none 0 0
          (afterPoll env s1 ws1 w1).1 (fun m a => afterPoll_no_pollEv env s1 ws1 w1 m a)
      · simp only [hL]
        refine pollAuthed_cons_nonpoll env _ _ (by simp) ?_
        have := pollLoopF_pollAuthed env (self.instanceUrl ++ self.base_path ++ "/jobs/" ++
          env.triggerResp.body ++ "/status") self.timeout self Option.none Option.none 0 0
          [] (by simp)
        simpa using this
      · simp only [hL]
        refine pollAuthed_cons_nonpoll env _ _ (by simp) ?_
        have := pollLoopF_pollAuthed env (self.instanceUrl ++ self.base_path ++ "/jobs/" ++
          env.triggerResp.body ++ "/status") self.timeout self Option.none Option.none 0 0
          [] (by simp)
        simpa using this
  exact fun i n a h => main i n a h

/-- Witness for C8: in the fully successful environment the poll event sits
at index 2, directly after its re-authentication at index 1, and carries the
token `"tok"` that re-authentication returned. -/
theorem C8_witness :
    (some "Bearer tok" : Option String) = some ("Bearer " ++ (envOK.authResp 0).body) ∧
    0 < 2 ∧
    (tsEvents envOK lx0).get? (2 - 1) = some (Event.connectEv 0) :=
  C8_poll_freshly_authenticated envOK lx0 2 0 (some "Bearer tok") (by decide)
end LeanixClient
